import Mathlib

/-!
# kubectl-triage: the triage classification and aggregation engine

A shallow embedding of `pkg/plugin/plugin.go` and proofs about it.

* Kubernetes API objects (`corev1.Pod`, `corev1.ContainerStatus`, ...) are
  structures carrying the fields the plugin reads.  String-typed API enums
  (`PodPhase`, `PodConditionType`, `ConditionStatus`, event types) stay strings.
* Pointer fields that may be `nil` are `Option`s.
* `int32` restart counts are integers (`Int`); no arithmetic is done on them.
* A field called `Type` in the source is called `Type'` here (`Type` is reserved).
* Go slices are lists; `append` is `++ [x]`.
-/

set_option maxRecDepth 100000

namespace Plugin

/-! ## Data model -/

/-- The `corev1.ContainerStateWaiting` fields the plugin reads. -/
structure ContainerStateWaiting where
  Reason : String
  deriving DecidableEq, Repr

/-- The `corev1.ContainerStateRunning` value; the plugin only tests the pointer for `nil`. -/
structure ContainerStateRunning where
  deriving DecidableEq, Repr

/-- The `corev1.ContainerStateTerminated` fields the plugin reads. -/
structure ContainerStateTerminated where
  Reason : String
  deriving DecidableEq, Repr

/-- The `corev1.ContainerState`: three pointers, each possibly `nil`. -/
structure ContainerState where
  Waiting : Option ContainerStateWaiting
  Running : Option ContainerStateRunning
  Terminated : Option ContainerStateTerminated
  deriving DecidableEq, Repr

/-- The `corev1.ContainerStatus` fields the plugin reads. -/
structure ContainerStatus where
  Name : String
  State : ContainerState
  Ready : Bool
  RestartCount : Int
  deriving DecidableEq, Repr

/-- The `corev1.PodCondition` fields the plugin reads. -/
structure PodCondition where
  Type' : String
  Status : String
  deriving DecidableEq, Repr

/-- The `corev1.PodStatus` fields the plugin reads. -/
structure PodStatus where
  Phase : String
  Conditions : List PodCondition
  ContainerStatuses : List ContainerStatus
  deriving DecidableEq, Repr

/-- The `corev1.Pod` fields the plugin reads. -/
structure Pod where
  Name : String
  Status : PodStatus
  deriving DecidableEq, Repr

/-- The constant `corev1.PodRunning`. -/
def PodRunning : String := "Running"

/-- The constant `corev1.PodReady`. -/
def PodReady : String := "Ready"

/-- The constant `corev1.ConditionTrue`. -/
def ConditionTrue : String := "True"

/-- The constant `corev1.EventTypeWarning`. -/
def EventTypeWarning : String := "Warning"

/-- ContainerInfo holds information about a container's state. -/
structure ContainerInfo where
  Name : String
  State : String
  Reason : String
  RestartCount : Int
  Failed : Bool
  deriving DecidableEq, Repr

/-! ## Health gate -/

/-- Check 2 of `isPodTrulyHealthy`: the loop over `pod.Status.Conditions`, which
returns `false` at the first condition of type Ready whose status is not True. -/
def conditionsLoop : List PodCondition → Bool
  | [] => true
  | condition :: rest =>
    if condition.Type' = PodReady then
      if condition.Status ≠ ConditionTrue then false else conditionsLoop rest
    else conditionsLoop rest

/-- Check 3 of `isPodTrulyHealthy`: the loop over `pod.Status.ContainerStatuses`,
which returns `false` at the first container status with `RestartCount > 0`. -/
def restartsLoop : List ContainerStatus → Bool
  | [] => true
  | containerStatus :: rest =>
    if containerStatus.RestartCount > 0 then false else restartsLoop rest

/-- The function `isPodTrulyHealthy`. -/
def isPodTrulyHealthy (pod : Pod) : Bool :=
  if pod.Status.Phase ≠ PodRunning then false
  else if conditionsLoop pod.Status.Conditions = false then false
  else if restartsLoop pod.Status.ContainerStatuses = false then false
  else true

/-! ## Component classifier -/

/-- The reason list of the Waiting branch of `identifyFailedContainers`. -/
def waitingFailureReasons : List String :=
  ["CrashLoopBackOff", "Error", "ImagePullBackOff", "ErrImagePull",
   "CreateContainerError", "InvalidImageName"]

/-- The reason list of the Terminated branch of `identifyFailedContainers`. -/
def terminatedFailureReasons : List String :=
  ["Error", "OOMKilled", "ContainerCannotRun", "DeadlineExceeded"]

/-- The loop `for _, reason := range failureReasons`: starting from the flag
`failed`, it sets the flag and breaks at the first reason equal to `r`. -/
def reasonLoop (r : String) (failed : Bool) : List String → Bool
  | [] => failed
  | reason :: rest => if r = reason then true else reasonLoop r failed rest

/-- The body of the loop of `identifyFailedContainers` up to the placement:
the `ContainerInfo` built for one container status. -/
def containerInfo (cs : ContainerStatus) : ContainerInfo :=
  let info : ContainerInfo :=
    { Name := cs.Name, State := "", Reason := "", RestartCount := cs.RestartCount,
      Failed := false }
  let info : ContainerInfo := if cs.RestartCount > 0 then { info with Failed := true } else info
  match cs.State.Waiting with
  | some waiting =>
    { info with
      State := "Waiting"
      Reason := waiting.Reason
      Failed := reasonLoop waiting.Reason info.Failed waitingFailureReasons }
  | none =>
    match cs.State.Terminated with
    | some terminated =>
      { info with
        State := "Terminated"
        Reason := terminated.Reason
        Failed := reasonLoop terminated.Reason info.Failed terminatedFailureReasons }
    | none =>
      match cs.State.Running with
      | some _ => { info with State := "Running", Reason := "" }
      | none => info

/-- One iteration of the loop of `identifyFailedContainers` on the pair
`(failed, healthy)` of slices built so far. -/
def identifyStep (allContainers : Bool) (acc : List ContainerInfo × List ContainerInfo)
    (cs : ContainerStatus) : List ContainerInfo × List ContainerInfo :=
  let info := containerInfo cs
  if info.Failed || allContainers then (acc.1 ++ [info], acc.2)
  else (acc.1, acc.2 ++ [info])

/-- The function `identifyFailedContainers`: the pair `(failed, healthy)`. -/
def identifyFailedContainers (pod : Pod) (allContainers : Bool) :
    List ContainerInfo × List ContainerInfo :=
  pod.Status.ContainerStatuses.foldl (identifyStep allContainers) ([], [])

/-- The failure signal of a container status, in the words of the specification:
the restart count is positive, or the current state is Waiting with a reason of
the waiting set, or the current state is Terminated with a reason of the
terminated set.  A status whose `Waiting` pointer is set is in state Waiting,
so it is in state Terminated when only the `Terminated` pointer is set. -/
def FailureSignal (cs : ContainerStatus) : Prop :=
  cs.RestartCount > 0 ∨
  (∃ w ∈ cs.State.Waiting,
    w.Reason ∈ ["CrashLoopBackOff", "Error", "ImagePullBackOff", "ErrImagePull",
      "CreateContainerError", "InvalidImageName"]) ∨
  (cs.State.Waiting = none ∧ ∃ t ∈ cs.State.Terminated,
    t.Reason ∈ ["Error", "OOMKilled", "ContainerCannotRun", "DeadlineExceeded"])

instance FailureSignal.decidable (cs : ContainerStatus) : Decidable (FailureSignal cs) :=
  inferInstanceAs (Decidable (_ ∨ _ ∨ _))

/-! ## Event filter and ranker -/

/-- The `corev1.Event` fields the plugin reads.  `LastTimestamp` is the instant
of `event.LastTimestamp.Time`, in nanoseconds since the Unix epoch. -/
structure Event where
  Type' : String
  Reason : String
  Message : String
  LastTimestamp : Int
  deriving DecidableEq, Repr

/-- EventInfo holds simplified event information.  `Timestamp` is an instant,
in nanoseconds since the Unix epoch; `Time.Before` is `<` on instants. -/
structure EventInfo where
  Type' : String
  Reason : String
  Message : String
  Timestamp : Int
  deriving DecidableEq, Repr

/-- One iteration of the filtering loop of `getRelevantEvents`: a Warning or
Error event is appended to `relevantEvents`, any other event is skipped. -/
def filterStep (relevantEvents : List EventInfo) (event : Event) : List EventInfo :=
  if event.Type' = EventTypeWarning ∨ event.Type' = "Error" then
    relevantEvents ++
      [{ Type' := event.Type', Reason := event.Reason, Message := event.Message,
         Timestamp := event.LastTimestamp }]
  else relevantEvents

/-- The filtering loop of `getRelevantEvents` over `eventList.Items`. -/
def filterLoop (items : List Event) : List EventInfo :=
  items.foldl filterStep []

/-- The body of the inner sorting loop of `getRelevantEvents`: when the element
at `i` is before the element at `j`, the two are swapped. -/
def swapStep (i : Nat) (relevantEvents : List EventInfo) (j : Nat) : List EventInfo :=
  match relevantEvents[i]?, relevantEvents[j]? with
  | some x, some y =>
    if x.Timestamp < y.Timestamp then (relevantEvents.set i y).set j x else relevantEvents
  | _, _ => relevantEvents

/-- The inner sorting loop `for j := i + 1; j < len(relevantEvents); j++`. -/
def innerLoop (relevantEvents : List EventInfo) (i : Nat) : List EventInfo :=
  (List.range' (i + 1) (relevantEvents.length - (i + 1))).foldl (swapStep i) relevantEvents

/-- The outer sorting loop `for i := 0; i < len(relevantEvents)-1; i++`. -/
def sortLoop (relevantEvents : List EventInfo) : List EventInfo :=
  (List.range' 0 (relevantEvents.length - 1)).foldl innerLoop relevantEvents

/-- The function `getRelevantEvents`, given the outcome of the `List` call on
the event source: an error is returned as it is, a retrieved list is filtered
and sorted. -/
def getRelevantEvents (listed : Except String (List Event)) : Except String (List EventInfo) :=
  match listed with
  | Except.error err => Except.error err
  | Except.ok items => Except.ok (sortLoop (filterLoop items))

/-- The inner sorting loop read on lists: `x` is the element at position `i`,
the argument holds the elements after it; the result is the element left at
position `i` and the elements left after it. -/
def innerPass (x : EventInfo) : List EventInfo → EventInfo × List EventInfo
  | [] => (x, [])
  | y :: ys =>
    if x.Timestamp < y.Timestamp then ((innerPass y ys).1, x :: (innerPass y ys).2)
    else ((innerPass x ys).1, y :: (innerPass x ys).2)

/-- The outer sorting loop read on lists, with the number of elements as fuel. -/
def sortPasses : Nat → List EventInfo → List EventInfo
  | 0, l => l
  | _ + 1, [] => []
  | n + 1, x :: rest => (innerPass x rest).1 :: sortPasses n (innerPass x rest).2

/-- The `EventInfo` that `getRelevantEvents` builds from a retrieved event. -/
def eventInfo (event : Event) : EventInfo :=
  { Type' := event.Type', Reason := event.Reason, Message := event.Message,
    Timestamp := event.LastTimestamp }

/-! ## Durations and `float64` arithmetic

`time.Duration` is an `int64` count of nanoseconds.  `Duration.Seconds`,
`Duration.Minutes` and `Duration.Hours` compute in `float64`; a finite
`float64` is a dyadic rational `num / 2 ^ exp`, and every operation rounds its
exact result to the nearest value with a 53-bit significand, ties to even.
The exponent range of `float64` is not modelled: every value computed from a
`Duration` lies between `2 ^ (-42)` and `2 ^ 34` in magnitude, or is zero. -/

/-- A finite `float64` value: the dyadic rational `num / 2 ^ exp`. -/
structure Float64 where
  num : Int
  exp : Nat
  deriving DecidableEq, Repr

/-- The rational number a `Float64` stands for. -/
def Float64.toRat (f : Float64) : ℚ := (f.num : ℚ) / (2 : ℚ) ^ f.exp

/-- The floor of the binary logarithm, with `fuel` halvings allowed. -/
def log2Fuel : Nat → Nat → Nat
  | 0, _ => 0
  | fuel + 1, n => if n ≥ 2 then log2Fuel fuel (n / 2) + 1 else 0

/-- The floor of the binary logarithm of `n` (`0` for `n = 0`). -/
def ilog2 (n : Nat) : Nat := log2Fuel n n

/-- The quotient `n / d` rounded to the nearest integer, ties to even. -/
def roundHalfEven (n d : Nat) : Nat :=
  let q := n / d
  let r := n % d
  if 2 * r < d then q
  else if d < 2 * r then q + 1
  else if q % 2 = 0 then q else q + 1

/-- The value `m * 2 ^ k / 2 ^ up`, where `m` is `n * 2 ^ up / (d * 2 ^ k)`
rounded to the nearest integer, ties to even. -/
def roundNatAt (n d up k : Nat) : Float64 :=
  let m := roundHalfEven (n * 2 ^ up) (d * 2 ^ k)
  if up ≤ k then ⟨(m * 2 ^ (k - up) : Nat), 0⟩ else ⟨(m : Nat), up - k⟩

/-- The non-negative rational `n / d` (`d` positive) rounded to `float64`:
with `up = ilog2 d + 53` the scaled quotient `n * 2 ^ up / d` is at least
`2 ^ 52`; `2 ^ k` is the power that brings it into `[2 ^ 52, 2 ^ 53)`, so the
significand `m` of `roundNatAt` has 53 bits. -/
def roundNat (n d : Nat) : Float64 :=
  if n = 0 then ⟨0, 0⟩
  else roundNatAt n d (ilog2 d + 53) (ilog2 (n * 2 ^ (ilog2 d + 53) / d) - 52)

/-- The rational `p / q` (`q` positive) rounded to `float64`; rounding is
symmetric about zero. -/
def roundRat (p : Int) (q : Nat) : Float64 :=
  if p < 0 then ⟨-(roundNat p.natAbs q).num, (roundNat p.natAbs q).exp⟩
  else roundNat p.natAbs q

/-- The conversion `float64(n)` of an integer. -/
def Float64.ofInt (n : Int) : Float64 := roundRat n 1

/-- The `float64` sum `a + b`. -/
def Float64.add (a b : Float64) : Float64 :=
  roundRat (a.num * 2 ^ b.exp + b.num * 2 ^ a.exp) (2 ^ (a.exp + b.exp))

/-- The `float64` quotient `a / c` by a positive integer constant `c` that
`float64` holds exactly (`1e9`, `60*1e9`, `60*60*1e9`, `24`). -/
def Float64.divConst (a : Float64) (c : Nat) : Float64 :=
  roundRat a.num (c * 2 ^ a.exp)

/-- The conversion `int(f)`: the fraction is discarded (truncation toward zero). -/
def Float64.toInt (f : Float64) : Int := f.num.tdiv (2 ^ f.exp)

/-- The constant `time.Second`, in nanoseconds. -/
def Second : Int := 1000000000

/-- The constant `time.Minute`. -/
def Minute : Int := 60 * Second

/-- The constant `time.Hour`. -/
def Hour : Int := 60 * Minute

/-- The largest `time.Duration`, `1<<63 - 1`. -/
def maxDuration : Int := 2 ^ 63 - 1

/-- The smallest `time.Duration`, `-1 << 63`. -/
def minDuration : Int := -(2 ^ 63)

/-- The method `Duration.Seconds`: `float64(d / Second) + float64(d % Second)/1e9`,
with Go's truncating `/` and `%`. -/
def Duration.Seconds (d : Int) : Float64 :=
  Float64.add (Float64.ofInt (d.tdiv Second))
    (Float64.divConst (Float64.ofInt (d.tmod Second)) 1000000000)

/-- The method `Duration.Minutes`: `float64(d / Minute) + float64(d % Minute)/(60*1e9)`. -/
def Duration.Minutes (d : Int) : Float64 :=
  Float64.add (Float64.ofInt (d.tdiv Minute))
    (Float64.divConst (Float64.ofInt (d.tmod Minute)) (60 * 1000000000))

/-- The method `Duration.Hours`: `float64(d / Hour) + float64(d % Hour)/(60*60*1e9)`. -/
def Duration.Hours (d : Int) : Float64 :=
  Float64.add (Float64.ofInt (d.tdiv Hour))
    (Float64.divConst (Float64.ofInt (d.tmod Hour)) (60 * 60 * 1000000000))

/-- The function `formatDuration` on a duration `d` in nanoseconds; `%d` is the
decimal rendering of an integer. -/
def formatDuration (d : Int) : String :=
  if d < Minute then
    toString (Duration.Seconds d).toInt ++ "s"
  else if d < Hour then
    toString (Duration.Minutes d).toInt ++ "m"
  else if d < 24 * Hour then
    toString (Duration.Hours d).toInt ++ "h"
  else
    toString ((Duration.Hours d).divConst 24).toInt ++ "d"

/-! ## Log results and report rendering

The report is printed through the logger (`log.Info`, `log.ErrorMsg`) and
`fmt.Println`; the embedding returns the sequence of printed lines, each with
the call that printed it.  Go strings are embedded as Unicode strings. -/

/-- TriageOptions holds configuration for the triage command. -/
structure TriageOptions where
  PodName : String
  Namespace : String
  Lines : Int
  AllContainers : Bool
  Force : Bool
  NoColor : Bool
  deriving DecidableEq, Repr

/-- LogResult holds log output for a container; an `error` is `nil` (`none`)
or carries the text of `Error()`. -/
structure LogResult where
  ContainerName : String
  Previous : String
  Current : String
  PreviousError : Option String
  CurrentError : Option String
  deriving DecidableEq, Repr

/-- One printed line: by `log.Info`, by `log.ErrorMsg`, or by `fmt.Println`. -/
inductive OutputLine where
  | info (msg : String)
  | errorMsg (msg : String)
  | println (msg : String)
  deriving DecidableEq, Repr

/-- The method `Time.Sub` on instants: the difference, saturated to the range
of `time.Duration`. -/
def Time.Sub (t u : Int) : Int :=
  if t - u > maxDuration then maxDuration
  else if t - u < minDuration then minDuration
  else t - u

/-- The function `time.Since` at the current instant `now`. -/
def Time.Since (now t : Int) : Int := Time.Sub now t

/-- The method `Duration.Round`: `d` rounded to the nearest multiple of `m`,
halfway values away from zero, saturating where the result would overflow. -/
def Duration.Round (d m : Int) : Int :=
  if m ≤ 0 then d
  else
    let r := d.tmod m
    if d < 0 then
      let r := -r
      if r + r < m then d + r
      else if minDuration ≤ d - m + r then d - m + r
      else minDuration
    else if r + r < m then d - r
    else if d + m - r ≤ maxDuration then d + m - r
    else maxDuration

/-- The function `strings.Repeat` on a one-character string. -/
def stringsRepeat (c : Char) (count : Nat) : String := String.mk (List.replicate count c)

/-- The function `strings.Contains`: `substr` occurs in `s`. -/
def stringsContains (s substr : String) : Bool :=
  s.data.tails.any (fun t => substr.data.isPrefixOf t)

/-- The pieces of a character sequence between occurrences of `sep`. -/
def splitChars (sep : Char) : List Char → List (List Char)
  | [] => [[]]
  | c :: cs =>
    if c = sep then [] :: splitChars sep cs
    else
      match splitChars sep cs with
      | [] => [[c]]
      | piece :: pieces => (c :: piece) :: pieces

/-- The call `strings.Split(logs, "\n")`. -/
def stringsSplitLines (logs : String) : List String :=
  (splitChars '\n' logs.data).map String.mk

/-- The verb `%-Ns` of `fmt.Sprintf`: `s` padded with spaces on the right to
`width` characters. -/
def padRight (width : Nat) (s : String) : String :=
  s ++ String.mk (List.replicate (width - s.length) ' ')

/-- The ready-counting loop of `getReadyCount`. -/
def readyLoop : Nat → List ContainerStatus → Nat
  | ready, [] => ready
  | ready, cs :: rest => if cs.Ready then readyLoop (ready + 1) rest else readyLoop ready rest

/-- The function `getReadyCount`: the ready count in the format "1/1", "0/2". -/
def getReadyCount (pod : Pod) : String :=
  toString (readyLoop 0 pod.Status.ContainerStatuses) ++ "/" ++
    toString pod.Status.ContainerStatuses.length

/-- The keywords of `printHighlightedLogs`. -/
def keywords : List String :=
  ["ERROR", "error", "Error", "panic", "PANIC", "Panic",
   "fatal", "FATAL", "Fatal", "exception", "Exception", "EXCEPTION",
   "failed", "Failed", "FAILED", "killed", "Killed", "KILLED", "OOMKilled"]

/-- The keyword loop of `printHighlightedLogs`: true at the first keyword that
occurs in `line`. -/
def keywordLoop (line : String) : List String → Bool
  | [] => false
  | keyword :: rest => if stringsContains line keyword then true else keywordLoop line rest

/-- The loop of `printHighlightedLogs` over the lines of the log. -/
def printLines (noColor : Bool) : List String → List OutputLine
  | [] => []
  | line :: rest =>
    if line = "" then printLines noColor rest
    else
      let shouldHighlight := if !noColor then keywordLoop line keywords else false
      (if shouldHighlight then OutputLine.errorMsg ("  " ++ line)
        else OutputLine.println ("  " ++ line)) :: printLines noColor rest

/-- The function `printHighlightedLogs`. -/
def printHighlightedLogs (logs : String) (noColor : Bool) : List OutputLine :=
  printLines noColor (stringsSplitLines logs)

/-- The header line of the events section. -/
def eventsHeader : String := "⚠️  CRITICAL EVENTS (Warning/Error only - Last 10)"

/-- The line printed for one event in the events section. -/
def eventLine (now : Int) (event : EventInfo) : OutputLine :=
  let ago := Duration.Round (Time.Since now event.Timestamp) Second
  let text := "  " ++ formatDuration ago ++ " ago | " ++ padRight 7 event.Type' ++ " | " ++
    padRight 15 event.Reason ++ " | " ++ event.Message
  if event.Type' = "Error" ∨ stringsContains event.Reason "Failed" then OutputLine.errorMsg text
  else OutputLine.info text

/-- The loop over `events` in the events section, which stops once `count`
reaches 10. -/
def eventsLoop (now : Int) : Nat → List EventInfo → List OutputLine
  | _, [] => []
  | count, event :: rest =>
    if count ≥ 10 then [] else eventLine now event :: eventsLoop now (count + 1) rest

/-- The events section: printed for the container at index `0` when there are events. -/
def eventsSection (now : Int) (i : Nat) (events : List EventInfo) : List OutputLine :=
  if i = 0 ∧ events.length > 0 then
    [OutputLine.info eventsHeader] ++ eventsLoop now 0 events ++ [OutputLine.info ""]
  else []

/-- The previous-logs part of the logs section. -/
def previousLogs (logResult : LogResult) (noColor : Bool) : List OutputLine :=
  match logResult.PreviousError with
  | none =>
    if logResult.Previous ≠ "" then
      [OutputLine.info "🔥 PREVIOUS LOGS (Last Crash) - Last 50 lines",
       OutputLine.info (stringsRepeat '-' 80)] ++
      printHighlightedLogs logResult.Previous noColor ++
      [OutputLine.info (stringsRepeat '-' 80), OutputLine.info ""]
    else []
  | some err =>
    if !stringsContains err "previous terminated container" then
      [OutputLine.info "🔥 PREVIOUS LOGS",
       OutputLine.info ("  (No previous logs: " ++ err ++ ")"),
       OutputLine.info ""]
    else []

/-- The current-logs part of the logs section. -/
def currentLogs (logResult : LogResult) (noColor : Bool) : List OutputLine :=
  match logResult.CurrentError with
  | none =>
    if logResult.Current ≠ "" then
      [OutputLine.info "🔄 CURRENT LOGS - Last 50 lines",
       OutputLine.info (stringsRepeat '-' 80)] ++
      printHighlightedLogs logResult.Current noColor ++
      [OutputLine.info (stringsRepeat '-' 80), OutputLine.info ""]
    else []
  | some err =>
    [OutputLine.info "🔄 CURRENT LOGS",
     OutputLine.info ("  (No current logs: " ++ err ++ ")"),
     OutputLine.info ""]

/-- The logs section of the container at index `i`: printed when `logResults`
has an entry at `i`. -/
def logsSection (i : Nat) (logResults : List LogResult) (noColor : Bool) : List OutputLine :=
  match logResults[i]? with
  | some logResult => previousLogs logResult noColor ++ currentLogs logResult noColor
  | none => []

/-- The banner and the pod status section of one shown container. -/
def containerHeader (pod : Pod) (container : ContainerInfo) : List OutputLine :=
  [OutputLine.info "", OutputLine.info (stringsRepeat '=' 80),
   (if container.Failed then
      OutputLine.errorMsg ("🚨 TRIAGE FOR FAILED CONTAINER: '" ++ container.Name ++
        "' (Reason: " ++ container.Reason ++ ")")
    else OutputLine.info ("🔍 TRIAGE FOR CONTAINER: '" ++ container.Name ++ "'")),
   OutputLine.info (stringsRepeat '=' 80), OutputLine.info "",
   OutputLine.info "📋 POD STATUS",
   OutputLine.info ("  Phase: " ++ pod.Status.Phase ++ " | Restarts: " ++
     toString container.RestartCount ++ " | Ready: " ++ getReadyCount pod),
   OutputLine.info ""]

/-- The loop of `displayTriage` over `failedContainers`, from index `i` on. -/
def containersLoop (now : Int) (pod : Pod) (events : List EventInfo)
    (logResults : List LogResult) (noColor : Bool) : Nat → List ContainerInfo → List OutputLine
  | _, [] => []
  | i, container :: rest =>
    containerHeader pod container ++ eventsSection now i events ++
      logsSection i logResults noColor ++
      containersLoop now pod events logResults noColor (i + 1) rest

/-- The loop of `displayTriage` that renders the healthy containers. -/
def healthyNamesLoop : List String → List ContainerInfo → List String
  | healthyNames, [] => healthyNames
  | healthyNames, c :: rest =>
    healthyNamesLoop
      (healthyNames ++ [c.Name ++ " (" ++ c.State ++ ", " ++ toString c.RestartCount ++
        " restarts)"]) rest

/-- The healthy containers summary of `displayTriage`. -/
def healthySummary (healthyContainers : List ContainerInfo) : List OutputLine :=
  if healthyContainers.length > 0 then
    [OutputLine.info (stringsRepeat '-' 80),
     OutputLine.info ("ℹ️  " ++ toString healthyContainers.length ++
       " other container(s) running normally: [" ++
       String.intercalate ", " (healthyNamesLoop [] healthyContainers) ++ "]"),
     OutputLine.info ""]
  else []

/-- The function `displayTriage`, run at the instant `now`: the lines it prints. -/
def displayTriage (now : Int) (pod : Pod) (failedContainers healthyContainers : List ContainerInfo)
    (events : List EventInfo) (logResults : List LogResult) (opts : TriageOptions) :
    List OutputLine :=
  containersLoop now pod events logResults opts.NoColor 0 failedContainers ++
    healthySummary healthyContainers

/-- The number of times the events section is printed: the number of lines
that `log.Info` prints with the events header. -/
def eventsSectionCount (output : List OutputLine) : Nat :=
  output.count (OutputLine.info eventsHeader)

/-! ## Log aggregator

The log source is the part of the cluster client that `fetchLog` calls: a
function from the namespace, the pod name and the log options to the outcome
of `GetLogs(podName, opts).Stream()`.  `collectLogs` starts one goroutine per
container; each goroutine computes its `LogResult` and writes it to its own
slot of the pre-sized `results` slice, and `wg.Wait()` returns once every
goroutine has finished.  A run is described by its schedule: the order in
which the goroutines perform their write. -/

/-- The `corev1.PodLogOptions` fields that `collectLogs` sets (`Previous`
defaults to false). -/
structure PodLogOptions where
  Container : String
  Previous : Bool
  TailLines : Int
  deriving DecidableEq, Repr

/-- An open log stream: the bytes `io.Copy` reads from it and the error the
copy ends with, if any. -/
structure LogStream where
  data : String
  copyError : Option String
  deriving DecidableEq, Repr

/-- The log source: the outcome of `Pods(namespace).GetLogs(podName, opts).Stream()`,
an error or an open stream. -/
abbrev LogSource := String → String → PodLogOptions → Except String LogStream

/-- The function `fetchLog`: the log content and a `nil` error, or the empty
string and the error of `Stream` or of `io.Copy`. -/
def fetchLog (clientset : LogSource) (namespace' podName : String) (opts : PodLogOptions) :
    String × Option String :=
  match clientset namespace' podName opts with
  | Except.error err => ("", some err)
  | Except.ok podLogs =>
    match podLogs.copyError with
    | some err => ("", some err)
    | none => (podLogs.data, none)

/-- The body of the goroutine of `collectLogs` up to the write: the `LogResult`
of the container `containerName`, from the previous logs, then the current logs. -/
def goroutineResult (clientset : LogSource) (namespace' podName : String) (tailLines : Int)
    (containerName : String) : LogResult :=
  let previous := fetchLog clientset namespace' podName
    { Container := containerName, Previous := true, TailLines := tailLines }
  let current := fetchLog clientset namespace' podName
    { Container := containerName, Previous := false, TailLines := tailLines }
  { ContainerName := containerName
    Previous := previous.1
    PreviousError := previous.2
    Current := current.1
    CurrentError := current.2 }

/-- The zero value of `LogResult`, which `make([]LogResult, n)` fills the slice with. -/
def LogResult.zero : LogResult :=
  { ContainerName := "", Previous := "", Current := "", PreviousError := none,
    CurrentError := none }

/-- The write `results[idx] = result` of the goroutine started for index `idx`. -/
def goroutineStep (clientset : LogSource) (namespace' podName : String)
    (containers : List ContainerInfo) (tailLines : Int) (results : List LogResult)
    (idx : Nat) : List LogResult :=
  match containers[idx]? with
  | some container =>
    results.set idx (goroutineResult clientset namespace' podName tailLines container.Name)
  | none => results

/-- The function `collectLogs` on a run with the given schedule: the `results`
slice after the goroutines have written in the order of `schedule`.  Every
goroutine runs exactly once before `wg.Wait()` returns, so the schedule of a
run is a permutation of the indices of `containers`. -/
def collectLogs (clientset : LogSource) (namespace' podName : String)
    (containers : List ContainerInfo) (tailLines : Int) (schedule : List Nat) :
    List LogResult :=
  schedule.foldl (goroutineStep clientset namespace' podName containers tailLines)
    (List.replicate containers.length LogResult.zero)

/-! ## Example inputs -/

/-- A Running pod that reports no Ready condition and whose only container is
not ready and never restarted. -/
def examplePodNotReady : Pod :=
  { Name := "web"
    Status :=
      { Phase := "Running"
        Conditions := []
        ContainerStatuses :=
          [{ Name := "app", State := ⟨none, some {}, none⟩, Ready := false,
             RestartCount := 0 }] } }

/-- Three retrieved Warning events: two with the same timestamp, then a later one. -/
def exampleEvents : List Event :=
  [{ Type' := "Warning", Reason := "BackOff", Message := "first", LastTimestamp := 1 },
   { Type' := "Warning", Reason := "Failed", Message := "second", LastTimestamp := 1 },
   { Type' := "Warning", Reason := "Unhealthy", Message := "third", LastTimestamp := 2 }]

/-- A Pending pod whose only container waits to be created and never restarted. -/
def examplePodPending : Pod :=
  { Name := "web"
    Status :=
      { Phase := "Pending"
        Conditions := [{ Type' := "Ready", Status := "False" }]
        ContainerStatuses :=
          [{ Name := "app", State := ⟨some ⟨"ContainerCreating"⟩, none, none⟩, Ready := false,
             RestartCount := 0 }] } }

/-- One Warning event, as returned by `getRelevantEvents`. -/
def exampleWarning : EventInfo :=
  { Type' := "Warning", Reason := "FailedMount", Message := "unable to mount volume",
    Timestamp := 0 }

/-- The default options of the command. -/
def exampleOptions : TriageOptions :=
  { PodName := "web", Namespace := "default", Lines := 50, AllContainers := false,
    Force := false, NoColor := false }

/-- A log source that fails for the previous logs of `app` and for all logs of
`broken`, and serves a line of text otherwise. -/
def exampleLogSource : LogSource := fun _ _ opts =>
  if opts.Container = "app" ∧ opts.Previous = true then
    Except.error "previous terminated container \"app\" in pod \"web\" not found"
  else if opts.Container = "broken" then Except.error "connection refused"
  else Except.ok { data := "started\n", copyError := none }

/-- Three shown containers, as `identifyFailedContainers` builds them. -/
def exampleContainers : List ContainerInfo :=
  [{ Name := "app", State := "Waiting", Reason := "CrashLoopBackOff", RestartCount := 5,
     Failed := true },
   { Name := "broken", State := "Terminated", Reason := "Error", RestartCount := 1,
     Failed := true },
   { Name := "sidecar", State := "Running", Reason := "", RestartCount := 2, Failed := true }]

/-- A pod with the given container statuses and zero values elsewhere, as the
cases of `TestGetReadyCount` build it; a status has a name and a Ready flag. -/
def testPod (containers : List (String × Bool)) : Pod :=
  { Name := ""
    Status :=
      { Phase := ""
        Conditions := []
        ContainerStatuses := containers.map (fun c =>
          { Name := c.1, State := ⟨none, none, none⟩, Ready := c.2, RestartCount := 0 }) } }

/-- A Running pod with the container `app` (5 restarts, Waiting in
CrashLoopBackOff) and the container `sidecar` (no restart, Running). -/
def examplePodCrashLoop : Pod :=
  { Name := "web"
    Status :=
      { Phase := "Running"
        Conditions := [{ Type' := "Ready", Status := "False" }]
        ContainerStatuses :=
          [{ Name := "app", State := ⟨some ⟨"CrashLoopBackOff"⟩, none, none⟩, Ready := false,
             RestartCount := 5 },
           { Name := "sidecar", State := ⟨none, some {}, none⟩, Ready := true,
             RestartCount := 0 }] } }

/-- The `ContainerInfo` of the container `app` of `examplePodCrashLoop`. -/
def exampleAppInfo : ContainerInfo :=
  { Name := "app", State := "Waiting", Reason := "CrashLoopBackOff", RestartCount := 5,
    Failed := true }

/-- The `LogResult` of a container that never ran before: the previous logs
fail with the log source's error for a missing previous instance, the current
logs are served. -/
def exampleAppLogs : LogResult :=
  { ContainerName := "app", Previous := "", Current := "started\n",
    PreviousError := some "previous terminated container \"app\" in pod \"web\" not found",
    CurrentError := none }

/-- A Running pod whose Ready condition is True and whose only container
carries the restart count `-1`, a value of the `int32` field. -/
def examplePodNegativeRestarts : Pod :=
  { Name := "web"
    Status :=
      { Phase := "Running"
        Conditions := [{ Type' := "Ready", Status := "True" }]
        ContainerStatuses :=
          [{ Name := "app", State := ⟨none, some {}, none⟩, Ready := true,
             RestartCount := -1 }] } }

/-- A Running pod whose only container `sidecar` is ready and never restarted. -/
def examplePodQuiet : Pod :=
  { Name := "web"
    Status :=
      { Phase := "Running"
        Conditions := [{ Type' := "Ready", Status := "True" }]
        ContainerStatuses :=
          [{ Name := "sidecar", State := ⟨none, some {}, none⟩, Ready := true,
             RestartCount := 0 }] } }

/-- The `LogResult` of a container that never ran before and has printed
nothing: the previous logs fail with the log source's error for a missing
previous instance, the current logs are empty and their fetch did not fail. -/
def exampleQuietLogs : LogResult :=
  { ContainerName := "sidecar", Previous := "", Current := "",
    PreviousError := some "previous terminated container \"sidecar\" in pod \"web\" not found",
    CurrentError := none }

/-! ## Theorems -/

/-! ### Health gate -/

theorem conditionsLoop_eq_true (cs : List PodCondition) :
    conditionsLoop cs = true ↔ ∀ c ∈ cs, c.Type' = "Ready" → c.Status = "True" := by
  induction cs with
  | nil => simp [conditionsLoop]
  | cons c rest ih =>
    by_cases hT : c.Type' = "Ready" <;> by_cases hS : c.Status = "True" <;>
      simp [conditionsLoop, PodReady, ConditionTrue, hT, hS, ih]

theorem restartsLoop_eq_true (cs : List ContainerStatus) :
    restartsLoop cs = true ↔ ∀ c ∈ cs, ¬ c.RestartCount > 0 := by
  induction cs with
  | nil => simp [restartsLoop]
  | cons c rest ih =>
    by_cases h : c.RestartCount > 0
    · simp [restartsLoop, h]
    · simp only [restartsLoop, h, if_false, ih, List.mem_cons, forall_eq_or_imp, not_false_eq_true,
        true_and]

theorem isPodTrulyHealthy_eq_true (pod : Pod) :
    isPodTrulyHealthy pod = true ↔
      pod.Status.Phase = "Running" ∧
      (∀ c ∈ pod.Status.Conditions, c.Type' = "Ready" → c.Status = "True") ∧
      (∀ cs ∈ pod.Status.ContainerStatuses, ¬ cs.RestartCount > 0) := by
  rw [← conditionsLoop_eq_true, ← restartsLoop_eq_true]
  unfold isPodTrulyHealthy PodRunning
  by_cases h1 : pod.Status.Phase = "Running" <;>
    cases h2 : conditionsLoop pod.Status.Conditions <;>
    cases h3 : restartsLoop pod.Status.ContainerStatuses <;> simp [h1]

/-- C1 (counterexample): on a Running pod whose Ready condition is True and
whose only container has restart count `-1`, `isPodTrulyHealthy` returns true
although not every restart count is exactly zero. -/
theorem isPodTrulyHealthy_negative_restart_count :
    isPodTrulyHealthy examplePodNegativeRestarts = true ∧
    ¬ (examplePodNegativeRestarts.Status.Phase = "Running" ∧
      (∀ c ∈ examplePodNegativeRestarts.Status.Conditions,
        c.Type' = "Ready" → c.Status = "True") ∧
      (∀ cs ∈ examplePodNegativeRestarts.Status.ContainerStatuses, cs.RestartCount = 0)) := by
  decide

/-- C1 (amended): for every pod, `isPodTrulyHealthy` returns true if and only
if the phase is Running, every condition of type Ready has status True, and
every container status has a restart count that is not positive; on a pod
whose restart counts are non-negative that is a restart count of exactly
zero. -/
theorem isPodTrulyHealthy_iff (pod : Pod) :
    (isPodTrulyHealthy pod = true ↔
      pod.Status.Phase = "Running" ∧
      (∀ c ∈ pod.Status.Conditions, c.Type' = "Ready" → c.Status = "True") ∧
      (∀ cs ∈ pod.Status.ContainerStatuses, cs.RestartCount ≤ 0)) ∧
    ((∀ cs ∈ pod.Status.ContainerStatuses, 0 ≤ cs.RestartCount) →
      (isPodTrulyHealthy pod = true ↔
        pod.Status.Phase = "Running" ∧
        (∀ c ∈ pod.Status.Conditions, c.Type' = "Ready" → c.Status = "True") ∧
        (∀ cs ∈ pod.Status.ContainerStatuses, cs.RestartCount = 0))) := by
  have hle : isPodTrulyHealthy pod = true ↔
      pod.Status.Phase = "Running" ∧
      (∀ c ∈ pod.Status.Conditions, c.Type' = "Ready" → c.Status = "True") ∧
      (∀ cs ∈ pod.Status.ContainerStatuses, cs.RestartCount ≤ 0) := by
    rw [isPodTrulyHealthy_eq_true]
    constructor
    · rintro ⟨h1, h2, h3⟩
      exact ⟨h1, h2, fun cs hcs => not_lt.mp (h3 cs hcs)⟩
    · rintro ⟨h1, h2, h3⟩
      exact ⟨h1, h2, fun cs hcs => not_lt.mpr (h3 cs hcs)⟩
  refine ⟨hle, fun hnonneg => ?_⟩
  rw [hle]
  constructor
  · rintro ⟨h1, h2, h3⟩
    exact ⟨h1, h2, fun cs hcs => le_antisymm (h3 cs hcs) (hnonneg cs hcs)⟩
  · rintro ⟨h1, h2, h3⟩
    exact ⟨h1, h2, fun cs hcs => le_of_eq (h3 cs hcs)⟩

/-! ### Component classifier -/

theorem reasonLoop_eq_true (r : String) (failed : Bool) (reasons : List String) :
    reasonLoop r failed reasons = true ↔ failed = true ∨ r ∈ reasons := by
  induction reasons with
  | nil => simp [reasonLoop]
  | cons reason rest ih =>
    by_cases h : r = reason
    · simp [reasonLoop, h]
    · simp [reasonLoop, h, ih]

theorem containerInfo_Name (cs : ContainerStatus) : (containerInfo cs).Name = cs.Name := by
  unfold containerInfo
  by_cases hr : cs.RestartCount > 0 <;>
    rcases hw : cs.State.Waiting with _ | w <;>
    rcases ht : cs.State.Terminated with _ | t <;>
    rcases hu : cs.State.Running with _ | u <;>
    simp [hr]

theorem containerInfo_RestartCount (cs : ContainerStatus) :
    (containerInfo cs).RestartCount = cs.RestartCount := by
  unfold containerInfo
  by_cases hr : cs.RestartCount > 0 <;>
    rcases hw : cs.State.Waiting with _ | w <;>
    rcases ht : cs.State.Terminated with _ | t <;>
    rcases hu : cs.State.Running with _ | u <;>
    simp [hr]

theorem containerInfo_Failed (cs : ContainerStatus) :
    (containerInfo cs).Failed = true ↔ FailureSignal cs := by
  unfold containerInfo FailureSignal
  by_cases hr : cs.RestartCount > 0 <;>
    rcases hw : cs.State.Waiting with _ | w <;>
    rcases ht : cs.State.Terminated with _ | t <;>
    rcases hu : cs.State.Running with _ | u <;>
    simp [hr, reasonLoop_eq_true, waitingFailureReasons, terminatedFailureReasons]

theorem foldl_identifyStep (all : Bool) (l : List ContainerStatus)
    (acc : List ContainerInfo × List ContainerInfo) :
    l.foldl (identifyStep all) acc =
      (acc.1 ++ (l.filter (fun cs => decide (FailureSignal cs) || all)).map containerInfo,
       acc.2 ++ (l.filter (fun cs => !(decide (FailureSignal cs) || all))).map containerInfo) := by
  induction l generalizing acc with
  | nil => simp
  | cons cs rest ih =>
    have hF : (containerInfo cs).Failed = decide (FailureSignal cs) := by
      rw [Bool.eq_iff_iff, containerInfo_Failed]; simp
    rw [List.foldl_cons, ih]
    unfold identifyStep
    by_cases hs : FailureSignal cs <;> cases all <;> simp [hF, hs, List.filter_cons]

theorem identifyFailedContainers_eq (pod : Pod) (all : Bool) :
    identifyFailedContainers pod all =
      ((pod.Status.ContainerStatuses.filter
          (fun cs => decide (FailureSignal cs) || all)).map containerInfo,
       (pod.Status.ContainerStatuses.filter
          (fun cs => !(decide (FailureSignal cs) || all))).map containerInfo) := by
  unfold identifyFailedContainers
  rw [foldl_identifyStep]
  simp

theorem forall₂_map_containerInfo (l : List ContainerStatus) :
    List.Forall₂ (fun cs info => info.Name = cs.Name ∧ (info.Failed = true ↔ FailureSignal cs))
      l (l.map containerInfo) := by
  induction l with
  | nil => exact List.Forall₂.nil
  | cons cs rest ih =>
    exact List.Forall₂.cons ⟨containerInfo_Name cs, containerInfo_Failed cs⟩ ih

/-- C2: for every pod and both values of `allContainers`, each `ContainerInfo`
of the failed list and of the healthy list of `identifyFailedContainers`
belongs to one container status (the statuses placed in that list, in order,
with the same name), and its `Failed` flag is true if and only if that status
has a positive restart count, or is Waiting with a reason of the waiting set,
or is Terminated with a reason of the terminated set.  So `Failed` is true
whenever the restart count is positive, and the flags do not depend on
`allContainers`: the infos produced with the flag set are those produced
without it. -/
theorem identifyFailedContainers_Failed_iff (pod : Pod) (allContainers : Bool) :
    List.Forall₂
        (fun cs info => info.Name = cs.Name ∧ (info.Failed = true ↔ FailureSignal cs))
        (pod.Status.ContainerStatuses.filter
          (fun cs => decide (FailureSignal cs) || allContainers))
        (identifyFailedContainers pod allContainers).1 ∧
    List.Forall₂
        (fun cs info => info.Name = cs.Name ∧ (info.Failed = true ↔ FailureSignal cs))
        (pod.Status.ContainerStatuses.filter
          (fun cs => !(decide (FailureSignal cs) || allContainers)))
        (identifyFailedContainers pod allContainers).2 ∧
    (∀ info ∈ (identifyFailedContainers pod allContainers).1 ++
        (identifyFailedContainers pod allContainers).2,
      info.RestartCount > 0 → info.Failed = true) ∧
    List.Perm
      ((identifyFailedContainers pod true).1 ++ (identifyFailedContainers pod true).2)
      ((identifyFailedContainers pod false).1 ++ (identifyFailedContainers pod false).2) := by
  simp only [identifyFailedContainers_eq]
  refine ⟨forall₂_map_containerInfo _, forall₂_map_containerInfo _, ?_, ?_⟩
  · intro info hinfo hpos
    simp only [List.mem_append, List.mem_map, List.mem_filter] at hinfo
    rcases hinfo with ⟨cs, _, rfl⟩ | ⟨cs, _, rfl⟩ <;>
    · rw [containerInfo_Failed]
      rw [containerInfo_RestartCount] at hpos
      exact Or.inl hpos
  · simp only [Bool.or_true, Bool.or_false, List.filter_true, Bool.not_true, List.filter_false,
      List.map_nil, List.append_nil, ← List.map_append]
    exact ((List.filter_append_perm _ _).map _).symm

/-- C3: for every pod and every value of `allContainers`, the failed list of
`identifyFailedContainers` is, in the original order and with name and restart
count copied, the sequence of the container statuses that have a failure
signal or are shown because `allContainers` is set, and the healthy list is
the sequence of the remaining ones; every info of the failed list has
`Failed` true or `allContainers` is set, no info of the healthy list has; the
two lists together are a rearrangement of the infos of all statuses, and their
lengths add up to the number of container statuses. -/
theorem identifyFailedContainers_partition (pod : Pod) (allContainers : Bool) :
    (identifyFailedContainers pod allContainers).1.map (fun i => (i.Name, i.RestartCount)) =
      (pod.Status.ContainerStatuses.filter
        (fun cs => (containerInfo cs).Failed || allContainers)).map
        (fun cs => (cs.Name, cs.RestartCount)) ∧
    (identifyFailedContainers pod allContainers).2.map (fun i => (i.Name, i.RestartCount)) =
      (pod.Status.ContainerStatuses.filter
        (fun cs => !((containerInfo cs).Failed || allContainers))).map
        (fun cs => (cs.Name, cs.RestartCount)) ∧
    (∀ i ∈ (identifyFailedContainers pod allContainers).1,
      i.Failed = true ∨ allContainers = true) ∧
    (∀ i ∈ (identifyFailedContainers pod allContainers).2,
      i.Failed = false ∧ allContainers = false) ∧
    List.Perm
      ((identifyFailedContainers pod allContainers).1 ++
        (identifyFailedContainers pod allContainers).2)
      (pod.Status.ContainerStatuses.map containerInfo) ∧
    (identifyFailedContainers pod allContainers).1.length +
      (identifyFailedContainers pod allContainers).2.length =
      pod.Status.ContainerStatuses.length := by
  have hF : ∀ cs, (containerInfo cs).Failed = decide (FailureSignal cs) := by
    intro cs
    rw [Bool.eq_iff_iff, containerInfo_Failed]; simp
  simp only [identifyFailedContainers_eq, hF]
  refine ⟨?_, ?_, ?_, ?_, ?_, ?_⟩
  · simp [List.map_map, Function.comp_def, containerInfo_Name, containerInfo_RestartCount]
  · simp [List.map_map, Function.comp_def, containerInfo_Name, containerInfo_RestartCount]
  · intro i hi
    simp only [List.mem_map, List.mem_filter] at hi
    obtain ⟨cs, ⟨_, hshown⟩, rfl⟩ := hi
    rw [hF]
    simpa using hshown
  · intro i hi
    simp only [List.mem_map, List.mem_filter] at hi
    obtain ⟨cs, ⟨_, hshown⟩, rfl⟩ := hi
    rw [hF]
    simpa using hshown
  · rw [← List.map_append]
    exact (List.filter_append_perm _ _).map _
  · rw [← List.length_append, ← List.map_append, List.length_map]
    exact (List.filter_append_perm _ _).length_eq

/-- C4: for every pod, `identifyFailedContainers` called with `allContainers`
true returns an empty healthy list and a failed list holding the info of every
container status, in order, whether or not any container is failed. -/
theorem identifyFailedContainers_allContainers (pod : Pod) :
    (identifyFailedContainers pod true).2 = [] ∧
    (identifyFailedContainers pod true).1 = pod.Status.ContainerStatuses.map containerInfo ∧
    (identifyFailedContainers pod true).1.map (fun i => (i.Name, i.RestartCount)) =
      pod.Status.ContainerStatuses.map (fun cs => (cs.Name, cs.RestartCount)) ∧
    (identifyFailedContainers pod true).1.length = pod.Status.ContainerStatuses.length := by
  simp [identifyFailedContainers_eq, Function.comp_def, containerInfo_Name,
    containerInfo_RestartCount]

/-- C8 (the code at the failing input): `isPodTrulyHealthy` returns true on a
Running pod without a Ready condition whose only container is not ready, so a
pod it calls healthy need not have all containers Ready. -/
theorem isPodTrulyHealthy_container_not_ready :
    isPodTrulyHealthy examplePodNotReady = true ∧
    ∃ cs ∈ examplePodNotReady.Status.ContainerStatuses, cs.Ready = false := by
  decide

/-! ### Event filter and ranker -/

theorem getElem?_append_cons (pre : List EventInfo) (x : EventInfo) (t : List EventInfo)
    (n : Nat) (hn : n = pre.length) : (pre ++ x :: t)[n]? = some x := by
  subst hn
  induction pre with
  | nil => simp
  | cons p ps ih => simpa using ih

theorem set_append_cons (pre : List EventInfo) (x v : EventInfo) (t : List EventInfo)
    (n : Nat) (hn : n = pre.length) : (pre ++ x :: t).set n v = pre ++ v :: t := by
  subst hn
  induction pre with
  | nil => rfl
  | cons p ps ih => simp [ih]

theorem swapStep_of_getElem? (i j : Nat) (a : List EventInfo) (x y : EventInfo)
    (hi : a[i]? = some x) (hj : a[j]? = some y) :
    swapStep i a j = if x.Timestamp < y.Timestamp then (a.set i y).set j x else a := by
  unfold swapStep
  rw [hi, hj]

theorem innerPass_length (x : EventInfo) (l : List EventInfo) :
    (innerPass x l).2.length = l.length := by
  induction l generalizing x with
  | nil => rfl
  | cons y ys ih =>
    unfold innerPass
    split <;> simp [ih]

theorem foldl_swapStep (todo : List EventInfo) (pre done : List EventInfo) (x : EventInfo) :
    (List.range' (pre.length + 1 + done.length) todo.length).foldl (swapStep pre.length)
        (pre ++ x :: (done ++ todo)) =
      pre ++ (innerPass x todo).1 :: (done ++ (innerPass x todo).2) := by
  induction todo generalizing done x with
  | nil => simp [innerPass]
  | cons y ys ih =>
    have hi : (pre ++ x :: (done ++ y :: ys))[pre.length]? = some x :=
      getElem?_append_cons pre x _ _ rfl
    have hj : (pre ++ x :: (done ++ y :: ys))[pre.length + 1 + done.length]? = some y := by
      have := getElem?_append_cons (pre ++ x :: done) y ys (pre.length + 1 + done.length)
        (by simp only [List.length_append, List.length_cons]; omega)
      simpa only [List.append_assoc, List.cons_append] using this
    have hlen : ∀ z : EventInfo,
        pre.length + 1 + done.length + 1 = pre.length + 1 + (done ++ [z]).length := by
      intro z
      simp [Nat.add_assoc]
    rw [List.length_cons, List.range'_succ, List.foldl_cons, swapStep_of_getElem? _ _ _ x y hi hj]
    by_cases hlt : x.Timestamp < y.Timestamp
    · rw [if_pos hlt, set_append_cons pre x y _ _ rfl]
      have hset : (pre ++ y :: (done ++ y :: ys)).set (pre.length + 1 + done.length) x =
          pre ++ y :: ((done ++ [x]) ++ ys) := by
        have := set_append_cons (pre ++ y :: done) y x ys (pre.length + 1 + done.length)
          (by simp only [List.length_append, List.length_cons]; omega)
        simpa only [List.append_assoc, List.cons_append, List.singleton_append,
          List.nil_append] using this
      rw [hset, hlen x, ih (done ++ [x]) y]
      simp [innerPass, hlt]
    · rw [if_neg hlt]
      have hre : pre ++ x :: (done ++ y :: ys) = pre ++ x :: ((done ++ [y]) ++ ys) := by simp
      rw [hre, hlen y, ih (done ++ [y]) x]
      simp [innerPass, hlt]

theorem innerLoop_append (pre : List EventInfo) (x : EventInfo) (rest : List EventInfo) :
    innerLoop (pre ++ x :: rest) pre.length =
      pre ++ (innerPass x rest).1 :: (innerPass x rest).2 := by
  unfold innerLoop
  have h := foldl_swapStep rest pre [] x
  simp only [List.length_nil, Nat.add_zero, List.nil_append] at h
  have hlen : (pre ++ x :: rest).length - (pre.length + 1) = rest.length := by
    simp only [List.length_append, List.length_cons]; omega
  rw [hlen, h]

theorem foldl_innerLoop (n : Nat) (pre l : List EventInfo) (hn : l.length = n) :
    (List.range' pre.length (l.length - 1)).foldl innerLoop (pre ++ l) =
      pre ++ sortPasses n l := by
  induction n generalizing pre l with
  | zero =>
    have : l = [] := List.length_eq_zero.mp hn
    subst this
    simp [sortPasses]
  | succ n ih =>
    match l, hn with
    | [x], _ =>
      have h0 : sortPasses n [] = [] := by cases n <;> rfl
      simp [sortPasses, innerPass, h0]
    | x :: y :: rest, hn =>
      have hlen : (x :: y :: rest).length - 1 = (rest.length) + 1 := by simp
      rw [hlen, List.range'_succ, List.foldl_cons, innerLoop_append]
      have hlen2 : (innerPass x (y :: rest)).2.length = n := by
        rw [innerPass_length]; simpa using hn
      have hr : rest.length = (innerPass x (y :: rest)).2.length - 1 := by
        rw [innerPass_length]; simp
      have := ih (pre ++ [(innerPass x (y :: rest)).1]) (innerPass x (y :: rest)).2 hlen2
      simp only [List.length_append, List.length_singleton, List.append_assoc,
        List.singleton_append] at this
      rw [hr, this]
      simp [sortPasses]

theorem sortLoop_eq (l : List EventInfo) : sortLoop l = sortPasses l.length l := by
  have := foldl_innerLoop l.length [] l rfl
  simpa [sortLoop] using this

theorem innerPass_perm (x : EventInfo) (l : List EventInfo) :
    List.Perm ((innerPass x l).1 :: (innerPass x l).2) (x :: l) := by
  induction l generalizing x with
  | nil => exact List.Perm.refl _
  | cons y ys ih =>
    unfold innerPass
    split
    · exact (List.Perm.swap _ _ _).trans ((ih y).cons x)
    · exact (List.Perm.swap _ _ _).trans (((ih x).cons y).trans (List.Perm.swap _ _ _))

theorem innerPass_fst_ge (x : EventInfo) (l : List EventInfo) :
    x.Timestamp ≤ (innerPass x l).1.Timestamp ∧
      ∀ z ∈ l, z.Timestamp ≤ (innerPass x l).1.Timestamp := by
  induction l generalizing x with
  | nil => simp [innerPass]
  | cons y ys ih =>
    unfold innerPass
    split
    · rename_i hlt
      refine ⟨le_trans (le_of_lt hlt) (ih y).1, ?_⟩
      intro z hz
      rcases List.mem_cons.mp hz with rfl | hz
      · exact (ih z).1
      · exact (ih y).2 z hz
    · rename_i hlt
      refine ⟨(ih x).1, ?_⟩
      intro z hz
      rcases List.mem_cons.mp hz with rfl | hz
      · exact le_trans (not_lt.mp hlt) (ih x).1
      · exact (ih x).2 z hz

theorem innerPass_snd_le (x : EventInfo) (l : List EventInfo) :
    ∀ z ∈ (innerPass x l).2, z.Timestamp ≤ (innerPass x l).1.Timestamp := by
  intro z hz
  have hmem : z ∈ x :: l := (innerPass_perm x l).subset (List.mem_cons_of_mem _ hz)
  rcases List.mem_cons.mp hmem with rfl | hz'
  · exact (innerPass_fst_ge z l).1
  · exact (innerPass_fst_ge x l).2 z hz'

theorem sortPasses_perm (n : Nat) (l : List EventInfo) : List.Perm (sortPasses n l) l := by
  induction n generalizing l with
  | zero => exact List.Perm.refl _
  | succ n ih =>
    cases l with
    | nil => exact List.Perm.refl _
    | cons x rest =>
      simp only [sortPasses]
      exact ((ih _).cons _).trans (innerPass_perm x rest)

theorem sortPasses_pairwise (n : Nat) (l : List EventInfo) (hn : l.length ≤ n) :
    (sortPasses n l).Pairwise (fun a b => ¬ a.Timestamp < b.Timestamp) := by
  induction n generalizing l with
  | zero =>
    have : l = [] := List.length_eq_zero.mp (Nat.le_zero.mp hn)
    subst this
    exact List.Pairwise.nil
  | succ n ih =>
    cases l with
    | nil => exact List.Pairwise.nil
    | cons x rest =>
      simp only [sortPasses]
      refine List.Pairwise.cons ?_ (ih _ ?_)
      · intro z hz
        have hz' : z ∈ (innerPass x rest).2 := (sortPasses_perm n _).subset hz
        exact not_lt.mpr (innerPass_snd_le x rest z hz')
      · rw [innerPass_length]
        simpa using hn

theorem filterLoop_eq (items : List Event) :
    filterLoop items =
      (items.filter (fun e => decide (e.Type' = "Warning" ∨ e.Type' = "Error"))).map eventInfo := by
  have h : ∀ (l : List Event) (acc : List EventInfo),
      l.foldl filterStep acc =
        acc ++ (l.filter
          (fun e => decide (e.Type' = "Warning" ∨ e.Type' = "Error"))).map eventInfo := by
    intro l
    induction l with
    | nil => simp
    | cons e rest ih =>
      intro acc
      rw [List.foldl_cons, ih]
      by_cases he : e.Type' = "Warning" ∨ e.Type' = "Error"
      · simp [filterStep, EventTypeWarning, he, List.filter_cons, eventInfo]
      · simp [filterStep, EventTypeWarning, he, List.filter_cons]
  simpa [filterLoop] using h items []

/-- C5 (the code at the failing input): of three retrieved Warning events, the
first two having the same timestamp and the third a later one,
`getRelevantEvents` returns the third, then the second, then the first: the
two events with identical timestamps come out in the reverse of their
retrieval order. -/
theorem getRelevantEvents_reorders_equal_timestamps :
    getRelevantEvents (Except.ok exampleEvents) =
      Except.ok
        [{ Type' := "Warning", Reason := "Unhealthy", Message := "third", Timestamp := 2 },
         { Type' := "Warning", Reason := "Failed", Message := "second", Timestamp := 1 },
         { Type' := "Warning", Reason := "BackOff", Message := "first", Timestamp := 1 }] := by
  show Except.ok (sortLoop (filterLoop exampleEvents)) = _
  exact congrArg Except.ok (by decide)

/-- C6: for every retrieved event list, `getRelevantEvents` returns a sequence
ordered by timestamp descending: for all positions `i < j` of the result, the
timestamp at `i` is not before the timestamp at `j`. -/
theorem getRelevantEvents_sorted (items : List Event) :
    ∃ result, getRelevantEvents (Except.ok items) = Except.ok result ∧
      (∀ (i j : Nat) (hi : i < result.length) (hj : j < result.length), i < j →
        ¬ (result.get ⟨i, hi⟩).Timestamp < (result.get ⟨j, hj⟩).Timestamp) ∧
      result.Pairwise (fun a b => b.Timestamp ≤ a.Timestamp) := by
  refine ⟨sortLoop (filterLoop items), rfl, ?_, ?_⟩
  · have h := sortPasses_pairwise _ (filterLoop items) (le_refl _)
    rw [← sortLoop_eq, List.pairwise_iff_getElem] at h
    intro i j hi hj hij
    exact h i j hi hj hij
  · have h := sortPasses_pairwise _ (filterLoop items) (le_refl _)
    rw [← sortLoop_eq] at h
    exact h.imp (fun hab => not_lt.mp hab)

/-- C7: for every retrieved event list, `getRelevantEvents` returns a
permutation of the input events whose type is Warning or Error, each carried
over with its type, reason, message and last timestamp; so every returned
event is of type Warning or Error, none is dropped or duplicated, and a
retrieved list without Warning and Error events gives the empty sequence. -/
theorem getRelevantEvents_perm (items : List Event) :
    ∃ result, getRelevantEvents (Except.ok items) = Except.ok result ∧
      List.Perm result
        ((items.filter (fun e => decide (e.Type' = "Warning" ∨ e.Type' = "Error"))).map
          (fun e =>
            { Type' := e.Type', Reason := e.Reason, Message := e.Message,
              Timestamp := e.LastTimestamp })) ∧
      (∀ info ∈ result, info.Type' = "Warning" ∨ info.Type' = "Error") ∧
      getRelevantEvents
          (Except.ok
            (items.filter (fun e => !decide (e.Type' = "Warning" ∨ e.Type' = "Error")))) =
        Except.ok [] := by
  have hperm : List.Perm (sortLoop (filterLoop items))
      ((items.filter (fun e => decide (e.Type' = "Warning" ∨ e.Type' = "Error"))).map
        eventInfo) := by
    rw [sortLoop_eq]
    exact (sortPasses_perm _ _).trans (by rw [filterLoop_eq])
  refine ⟨sortLoop (filterLoop items), rfl, hperm, ?_, ?_⟩
  · intro info hinfo
    have hmem := hperm.subset hinfo
    simp only [List.mem_map, List.mem_filter] at hmem
    obtain ⟨e, ⟨_, he⟩, rfl⟩ := hmem
    simpa [eventInfo] using he
  · have hnone : filterLoop
        (items.filter (fun e => !decide (e.Type' = "Warning" ∨ e.Type' = "Error"))) = [] := by
      rw [filterLoop_eq, List.map_eq_nil_iff, List.filter_eq_nil_iff]
      intro e he hkeep
      have hdrop := (List.mem_filter.mp he).2
      rw [hkeep] at hdrop
      exact absurd hdrop (by decide)
    simp only [getRelevantEvents, hnone]
    rfl

/-! ### `float64` rounding -/

theorem log2Fuel_spec (fuel n : Nat) (hfuel : n ≤ fuel) (hn : 1 ≤ n) :
    2 ^ log2Fuel fuel n ≤ n ∧ n < 2 ^ (log2Fuel fuel n + 1) := by
  induction fuel generalizing n with
  | zero => omega
  | succ fuel ih =>
    unfold log2Fuel
    by_cases h2 : n ≥ 2
    · rw [if_pos h2]
      have h := ih (n / 2) (by omega) (by omega)
      generalize log2Fuel fuel (n / 2) = l at h
      rw [pow_succ, pow_succ]
      rw [pow_succ] at h
      constructor <;> omega
    · rw [if_neg h2]
      simp
      omega

theorem ilog2_spec (n : Nat) (hn : 1 ≤ n) : 2 ^ ilog2 n ≤ n ∧ n < 2 ^ (ilog2 n + 1) :=
  log2Fuel_spec n n (le_refl n) hn

theorem le_roundHalfEven (n d L : Nat) (hd : 0 < d) (h : L * d ≤ n) :
    L ≤ roundHalfEven n d := by
  have hq : L ≤ n / d := (Nat.le_div_iff_mul_le hd).mpr h
  unfold roundHalfEven
  simp only []
  split_ifs <;> omega

theorem roundHalfEven_le (n d H : Nat) (hd : 0 < d) (h : n ≤ H * d) :
    roundHalfEven n d ≤ H := by
  have hq : n / d ≤ H := Nat.div_le_of_le_mul (by rwa [Nat.mul_comm] at h)
  by_cases heq : n / d = H
  · have hmod : n % d = 0 := by
      have hdm := Nat.div_add_mod n d
      rw [heq, Nat.mul_comm] at hdm
      omega
    unfold roundHalfEven
    simp [hmod, hd, heq]
  · have hlt : n / d < H := lt_of_le_of_ne hq heq
    unfold roundHalfEven
    simp only []
    split_ifs <;> omega

theorem roundNatAt_toRat (n d up k : Nat) (hk : k ≤ up) :
    (roundNatAt n d up k).toRat =
      (roundHalfEven (n * 2 ^ up) (d * 2 ^ k) : ℚ) * 2 ^ k / 2 ^ up := by
  obtain ⟨e, rfl⟩ : ∃ e, up = e + k := ⟨up - k, by omega⟩
  unfold roundNatAt
  simp only []
  by_cases h : e + k ≤ k
  · have he : e = 0 := by omega
    subst he
    rw [if_pos h]
    simp [Float64.toRat]
  · rw [if_neg h]
    have hek : e + k - k = e := by omega
    simp only [Float64.toRat, hek, Int.cast_natCast]
    rw [div_eq_div_iff (by positivity) (by positivity)]
    ring

theorem roundNatAt_lower (n d up k t L : Nat) (hd : 0 < d) (hk : k + t ≤ up)
    (h : L * d ≤ n * 2 ^ t) : (L : ℚ) / 2 ^ t ≤ (roundNatAt n d up k).toRat := by
  obtain ⟨e, rfl⟩ : ∃ e, up = e + k + t := ⟨up - k - t, by omega⟩
  rw [roundNatAt_toRat n d (e + k + t) k (by omega)]
  have hm : L * 2 ^ e ≤ roundHalfEven (n * 2 ^ (e + k + t)) (d * 2 ^ k) := by
    apply le_roundHalfEven _ _ _ (Nat.mul_pos hd (Nat.two_pow_pos _))
    calc L * 2 ^ e * (d * 2 ^ k) = L * d * (2 ^ e * 2 ^ k) := by ring
      _ ≤ n * 2 ^ t * (2 ^ e * 2 ^ k) := Nat.mul_le_mul_right _ h
      _ = n * 2 ^ (e + k + t) := by ring
  have hm' : (L : ℚ) * 2 ^ e ≤ (roundHalfEven (n * 2 ^ (e + k + t)) (d * 2 ^ k) : ℚ) := by
    exact_mod_cast hm
  rw [div_le_div_iff₀ (by positivity) (by positivity)]
  calc (L : ℚ) * 2 ^ (e + k + t) = (L * 2 ^ e) * (2 ^ k * 2 ^ t) := by ring
    _ ≤ (roundHalfEven (n * 2 ^ (e + k + t)) (d * 2 ^ k) : ℚ) * (2 ^ k * 2 ^ t) :=
        mul_le_mul_of_nonneg_right hm' (by positivity)
    _ = (roundHalfEven (n * 2 ^ (e + k + t)) (d * 2 ^ k) : ℚ) * 2 ^ k * 2 ^ t := by ring

theorem roundNatAt_upper (n d up k t H : Nat) (hd : 0 < d) (hk : k + t ≤ up)
    (h : n * 2 ^ t ≤ H * d) : (roundNatAt n d up k).toRat ≤ (H : ℚ) / 2 ^ t := by
  obtain ⟨e, rfl⟩ : ∃ e, up = e + k + t := ⟨up - k - t, by omega⟩
  rw [roundNatAt_toRat n d (e + k + t) k (by omega)]
  have hm : roundHalfEven (n * 2 ^ (e + k + t)) (d * 2 ^ k) ≤ H * 2 ^ e := by
    apply roundHalfEven_le _ _ _ (Nat.mul_pos hd (Nat.two_pow_pos _))
    calc n * 2 ^ (e + k + t) = n * 2 ^ t * (2 ^ e * 2 ^ k) := by ring
      _ ≤ H * d * (2 ^ e * 2 ^ k) := Nat.mul_le_mul_right _ h
      _ = H * 2 ^ e * (d * 2 ^ k) := by ring
  have hm' : (roundHalfEven (n * 2 ^ (e + k + t)) (d * 2 ^ k) : ℚ) ≤ (H : ℚ) * 2 ^ e := by
    exact_mod_cast hm
  rw [div_le_div_iff₀ (by positivity) (by positivity)]
  calc (roundHalfEven (n * 2 ^ (e + k + t)) (d * 2 ^ k) : ℚ) * 2 ^ k * 2 ^ t
      = (roundHalfEven (n * 2 ^ (e + k + t)) (d * 2 ^ k) : ℚ) * (2 ^ k * 2 ^ t) := by ring
    _ ≤ (H * 2 ^ e) * (2 ^ k * 2 ^ t) := mul_le_mul_of_nonneg_right hm' (by positivity)
    _ = (H : ℚ) * 2 ^ (e + k + t) := by ring

/-- The exponent chosen by `roundNat` leaves at least `t` fraction bits when
the quotient is below `2 ^ (53 - t)`. -/
theorem roundNat_exponent (n d t : Nat) (hn : 0 < n) (hd : 0 < d) (ht : t ≤ 53)
    (hsmall : n < 2 ^ (53 - t) * d) :
    ilog2 (n * 2 ^ (ilog2 d + 53) / d) - 52 + t ≤ ilog2 d + 53 := by
  have hdlog := (ilog2_spec d hd).2
  generalize ilog2 d = b at hdlog ⊢
  have hge : 2 ^ 52 ≤ n * 2 ^ (b + 53) / d := by
    rw [Nat.le_div_iff_mul_le hd]
    calc 2 ^ 52 * d ≤ 2 ^ 52 * 2 ^ (b + 1) := Nat.mul_le_mul_left _ (le_of_lt hdlog)
      _ = 1 * 2 ^ (b + 53) := by ring
      _ ≤ n * 2 ^ (b + 53) := Nat.mul_le_mul_right _ hn
  have hlt : n * 2 ^ (b + 53) / d < 2 ^ (b + 53 + (53 - t)) := by
    rw [Nat.div_lt_iff_lt_mul hd]
    calc n * 2 ^ (b + 53) < 2 ^ (53 - t) * d * 2 ^ (b + 53) :=
          Nat.mul_lt_mul_of_pos_right hsmall (Nat.two_pow_pos _)
      _ = 2 ^ (b + 53 + (53 - t)) * d := by ring
  have hpos : 1 ≤ n * 2 ^ (b + 53) / d := le_trans (Nat.one_le_two_pow) hge
  have hlog := (ilog2_spec _ hpos).1
  generalize ilog2 (n * 2 ^ (b + 53) / d) = l at hlog ⊢
  have hl : l < b + 53 + (53 - t) :=
    (Nat.pow_lt_pow_iff_right (by norm_num)).mp (lt_of_le_of_lt hlog hlt)
  omega

theorem roundNat_lower (n d t L : Nat) (hd : 0 < d) (ht : t ≤ 53)
    (hsmall : n < 2 ^ (53 - t) * d) (h : L * d ≤ n * 2 ^ t) :
    (L : ℚ) / 2 ^ t ≤ (roundNat n d).toRat := by
  unfold roundNat
  by_cases hn : n = 0
  · subst hn
    have hL : L = 0 := by
      rcases Nat.eq_zero_or_pos L with h0 | h0
      · exact h0
      · have := Nat.mul_pos h0 hd
        omega
    simp [hL, Float64.toRat]
  · rw [if_neg hn]
    exact roundNatAt_lower _ _ _ _ _ _ hd
      (roundNat_exponent n d t (Nat.pos_of_ne_zero hn) hd ht hsmall) h

theorem roundNat_upper (n d t H : Nat) (hd : 0 < d) (ht : t ≤ 53)
    (hsmall : n < 2 ^ (53 - t) * d) (h : n * 2 ^ t ≤ H * d) :
    (roundNat n d).toRat ≤ (H : ℚ) / 2 ^ t := by
  unfold roundNat
  by_cases hn : n = 0
  · subst hn
    simp only [if_true, Float64.toRat, Int.cast_zero, zero_div]
    positivity
  · rw [if_neg hn]
    exact roundNatAt_upper _ _ _ _ _ _ hd
      (roundNat_exponent n d t (Nat.pos_of_ne_zero hn) hd ht hsmall) h

theorem roundNat_num_nonneg (n d : Nat) : 0 ≤ (roundNat n d).num := by
  unfold roundNat roundNatAt
  simp only []
  split_ifs
  · exact le_refl _
  · exact Int.natCast_nonneg _
  · exact Int.natCast_nonneg _

theorem roundRat_natCast (n q : Nat) : roundRat (n : Int) q = roundNat n q := by
  unfold roundRat
  rw [if_neg (not_lt.mpr (Int.natCast_nonneg n)), Int.natAbs_ofNat]

theorem roundRat_lower (n q t L : Nat) (hq : 0 < q) (ht : t ≤ 53)
    (hsmall : (n : ℚ) / q < 2 ^ (53 - t)) (h : (L : ℚ) / 2 ^ t ≤ (n : ℚ) / q) :
    (L : ℚ) / 2 ^ t ≤ (roundRat (n : Int) q).toRat := by
  have hq' : (0 : ℚ) < q := by exact_mod_cast hq
  rw [roundRat_natCast]
  apply roundNat_lower n q t L hq ht
  · rw [div_lt_iff₀ hq'] at hsmall
    exact_mod_cast hsmall
  · rw [div_le_div_iff₀ (by positivity) hq'] at h
    exact_mod_cast h

theorem roundRat_upper (n q t H : Nat) (hq : 0 < q) (ht : t ≤ 53)
    (hsmall : (n : ℚ) / q < 2 ^ (53 - t)) (h : (n : ℚ) / q ≤ (H : ℚ) / 2 ^ t) :
    (roundRat (n : Int) q).toRat ≤ (H : ℚ) / 2 ^ t := by
  have hq' : (0 : ℚ) < q := by exact_mod_cast hq
  rw [roundRat_natCast]
  apply roundNat_upper n q t H hq ht
  · rw [div_lt_iff₀ hq'] at hsmall
    exact_mod_cast hsmall
  · rw [div_le_div_iff₀ hq' (by positivity)] at h
    exact_mod_cast h

/-- An integer below `2 ^ 53` is converted to `float64` exactly. -/
theorem ofInt_natCast (n : Nat) (hn : n < 2 ^ 53) :
    0 ≤ (Float64.ofInt (n : Int)).num ∧ (Float64.ofInt (n : Int)).toRat = n := by
  unfold Float64.ofInt
  refine ⟨by rw [roundRat_natCast]; exact roundNat_num_nonneg _ _, le_antisymm ?_ ?_⟩
  · have := roundRat_upper n 1 0 n Nat.one_pos (by norm_num)
      (by simp only [Nat.cast_one, div_one]; exact_mod_cast hn) (by simp)
    simpa using this
  · have := roundRat_lower n 1 0 n Nat.one_pos (by norm_num)
      (by simp only [Nat.cast_one, div_one]; exact_mod_cast hn) (by simp)
    simpa using this

/-- The quotient of a non-negative `float64` by a constant: within
`[L / 2 ^ t, H / 2 ^ t]` when the exact quotient is, and is below `2 ^ (53 - t)`. -/
theorem divConst_bounds (a : Float64) (c t L H : Nat) (ha : 0 ≤ a.num) (hc : 0 < c)
    (ht : t ≤ 53) (hsmall : a.toRat / c < 2 ^ (53 - t))
    (hL : (L : ℚ) / 2 ^ t ≤ a.toRat / c) (hH : a.toRat / c ≤ (H : ℚ) / 2 ^ t) :
    0 ≤ (a.divConst c).num ∧ (L : ℚ) / 2 ^ t ≤ (a.divConst c).toRat ∧
      (a.divConst c).toRat ≤ (H : ℚ) / 2 ^ t := by
  obtain ⟨m, hm⟩ := Int.eq_ofNat_of_zero_le ha
  have hval : ((m : ℕ) : ℚ) / ((c * 2 ^ a.exp : ℕ) : ℚ) = a.toRat / c := by
    have hc' : (c : ℚ) ≠ 0 := by exact_mod_cast hc.ne'
    simp only [Float64.toRat, hm, Int.cast_natCast, Nat.cast_mul, Nat.cast_pow, Nat.cast_ofNat]
    rw [div_div, mul_comm]
  have hq : 0 < c * 2 ^ a.exp := Nat.mul_pos hc (Nat.two_pow_pos _)
  unfold Float64.divConst
  rw [hm]
  refine ⟨by rw [roundRat_natCast]; exact roundNat_num_nonneg _ _, ?_, ?_⟩
  · exact roundRat_lower m _ t L hq ht (by rw [hval]; exact hsmall) (by rw [hval]; exact hL)
  · exact roundRat_upper m _ t H hq ht (by rw [hval]; exact hsmall) (by rw [hval]; exact hH)

/-- The sum of two non-negative `float64` values: within `[L / 2 ^ t, H / 2 ^ t]`
when the exact sum is, and is below `2 ^ (53 - t)`. -/
theorem add_bounds (a b : Float64) (t L H : Nat) (ha : 0 ≤ a.num) (hb : 0 ≤ b.num)
    (ht : t ≤ 53) (hsmall : a.toRat + b.toRat < 2 ^ (53 - t))
    (hL : (L : ℚ) / 2 ^ t ≤ a.toRat + b.toRat) (hH : a.toRat + b.toRat ≤ (H : ℚ) / 2 ^ t) :
    0 ≤ (a.add b).num ∧ (L : ℚ) / 2 ^ t ≤ (a.add b).toRat ∧
      (a.add b).toRat ≤ (H : ℚ) / 2 ^ t := by
  obtain ⟨m, hm⟩ := Int.eq_ofNat_of_zero_le ha
  obtain ⟨n, hn⟩ := Int.eq_ofNat_of_zero_le hb
  have hcast : a.num * 2 ^ b.exp + b.num * 2 ^ a.exp =
      ((m * 2 ^ b.exp + n * 2 ^ a.exp : ℕ) : Int) := by
    rw [hm, hn]
    push_cast
    ring
  have hval : ((m * 2 ^ b.exp + n * 2 ^ a.exp : ℕ) : ℚ) / ((2 ^ (a.exp + b.exp) : ℕ) : ℚ) =
      a.toRat + b.toRat := by
    simp only [Float64.toRat, hm, hn, Int.cast_natCast, Nat.cast_add, Nat.cast_mul,
      Nat.cast_pow, Nat.cast_ofNat, pow_add]
    field_simp
  have hq : 0 < 2 ^ (a.exp + b.exp) := Nat.two_pow_pos _
  unfold Float64.add
  rw [hcast]
  refine ⟨by rw [roundRat_natCast]; exact roundNat_num_nonneg _ _, ?_, ?_⟩
  · exact roundRat_lower _ _ t L hq ht (by rw [hval]; exact hsmall) (by rw [hval]; exact hL)
  · exact roundRat_upper _ _ t H hq ht (by rw [hval]; exact hsmall) (by rw [hval]; exact hH)

/-- The conversion `int(f)` of a non-negative `float64` in `[S, S + 1)` is `S`. -/
theorem toInt_eq (f : Float64) (S : Nat) (hf : 0 ≤ f.num) (hlo : (S : ℚ) ≤ f.toRat)
    (hhi : f.toRat < S + 1) : f.toInt = S := by
  obtain ⟨m, hm⟩ := Int.eq_ofNat_of_zero_le hf
  have hpow : (0 : ℚ) < 2 ^ f.exp := by positivity
  unfold Float64.toInt
  rw [hm, Int.tdiv_eq_ediv (Int.natCast_nonneg _) (by positivity)]
  simp only [Float64.toRat, hm, Int.cast_natCast] at hlo hhi
  rw [le_div_iff₀ hpow] at hlo
  rw [div_lt_iff₀ hpow] at hhi
  have h1 : S * 2 ^ f.exp ≤ m := by exact_mod_cast hlo
  have h2 : m < (S + 1) * 2 ^ f.exp := by exact_mod_cast hhi
  have : m / 2 ^ f.exp = S := Nat.div_eq_of_lt_le h1 h2
  exact_mod_cast this

/-- The shape shared by `Duration.Seconds`, `Duration.Minutes` and
`Duration.Hours` on a non-negative duration `n` with unit `c`: the `float64`
sum of the whole part `n / c` and the fraction `(n % c) / c` lies in
`[n / c, n / c + 1 - 2 ^ (-t)]` when the fraction is at most `1 - 2 ^ (-t)`
and the whole part is below `2 ^ (53 - t)`. -/
theorem unit_bounds (n c t : Nat) (hc : 0 < c) (hc53 : c ≤ 2 ^ 53) (ht : t ≤ 53)
    (hq : n / c + 1 ≤ 2 ^ (53 - t)) (hfrac : (n % c) * 2 ^ t ≤ (2 ^ t - 1) * c) :
    0 ≤ (Float64.add (Float64.ofInt ((n / c : Nat) : Int))
        (Float64.divConst (Float64.ofInt ((n % c : Nat) : Int)) c)).num ∧
    ((n / c : Nat) : ℚ) ≤ (Float64.add (Float64.ofInt ((n / c : Nat) : Int))
        (Float64.divConst (Float64.ofInt ((n % c : Nat) : Int)) c)).toRat ∧
    (Float64.add (Float64.ofInt ((n / c : Nat) : Int))
        (Float64.divConst (Float64.ofInt ((n % c : Nat) : Int)) c)).toRat ≤
      ((n / c : Nat) : ℚ) + 1 - 1 / 2 ^ t := by
  have hc' : (0 : ℚ) < c := by exact_mod_cast hc
  have hpt : (0 : ℚ) < 2 ^ t := by positivity
  have hpow_le : (2 : ℕ) ^ (53 - t) ≤ 2 ^ 53 :=
    Nat.pow_le_pow_right (by norm_num) (by omega)
  have hr53 : n % c < 2 ^ 53 := lt_of_lt_of_le (Nat.mod_lt n hc) hc53
  have hq53 : n / c < 2 ^ 53 := by omega
  obtain ⟨hr0, hrv⟩ := ofInt_natCast (n % c) hr53
  obtain ⟨hq0, hqv⟩ := ofInt_natCast (n / c) hq53
  have hone : (1 : ℚ) ≤ 2 ^ (53 - t) := one_le_pow₀ (by norm_num)
  have hqle : ((n / c : Nat) : ℚ) + 1 ≤ 2 ^ (53 - t) := by exact_mod_cast hq
  have hH : (((2 ^ t - 1 : Nat)) : ℚ) = 2 ^ t - 1 := by
    rw [Nat.cast_sub Nat.one_le_two_pow]
    simp
  have hrc : ((n % c : Nat) : ℚ) / c ≤ ((2 ^ t - 1 : Nat) : ℚ) / 2 ^ t := by
    rw [div_le_div_iff₀ hc' hpt]
    exact_mod_cast hfrac
  have hrc1 : ((n % c : Nat) : ℚ) / c < 1 := by
    rw [div_lt_one hc']
    exact_mod_cast Nat.mod_lt n hc
  obtain ⟨hx0, hxlo, hxhi⟩ := divConst_bounds (Float64.ofInt ((n % c : Nat) : Int)) c t 0
    (2 ^ t - 1) hr0 hc ht (by rw [hrv]; exact lt_of_lt_of_le hrc1 hone)
    (by rw [hrv]; simp only [Nat.cast_zero, zero_div]; positivity) (by rw [hrv]; exact hrc)
  set x := Float64.divConst (Float64.ofInt ((n % c : Nat) : Int)) c with hx
  simp only [Nat.cast_zero, zero_div] at hxlo
  have hxhi' : x.toRat ≤ 1 - 1 / 2 ^ t := by
    rw [hH] at hxhi
    have : ((2 : ℚ) ^ t - 1) / 2 ^ t = 1 - 1 / 2 ^ t := by field_simp
    rw [← this]
    exact hxhi
  have hinv : (0 : ℚ) < 1 / 2 ^ t := by positivity
  have hsum_lt : (Float64.ofInt ((n / c : Nat) : Int)).toRat + x.toRat < 2 ^ (53 - t) := by
    rw [hqv]
    linarith
  have hsum_lt53 : (Float64.ofInt ((n / c : Nat) : Int)).toRat + x.toRat < 2 ^ (53 - 0) := by
    have : (2 : ℚ) ^ (53 - t) ≤ 2 ^ (53 - 0) := by exact_mod_cast hpow_le
    exact lt_of_lt_of_le hsum_lt this
  have hHq : ((((n / c + 1) * 2 ^ t - 1 : Nat)) : ℚ) = ((n / c : Nat) + 1) * 2 ^ t - 1 := by
    have h1 : 1 ≤ (n / c + 1) * 2 ^ t := Nat.mul_pos (Nat.succ_pos _) (Nat.two_pow_pos _)
    rw [Nat.cast_sub h1]
    simp
  obtain ⟨hy0, hylo, -⟩ := add_bounds (Float64.ofInt ((n / c : Nat) : Int)) x 0 (n / c)
    (2 ^ 53) hq0 hx0 (by norm_num) hsum_lt53
    (by rw [hqv]; simp only [pow_zero, div_one]; linarith)
    (by simp only [pow_zero, div_one]; push_cast; exact le_of_lt hsum_lt53)
  obtain ⟨-, -, hyhi⟩ := add_bounds (Float64.ofInt ((n / c : Nat) : Int)) x t 0
    ((n / c + 1) * 2 ^ t - 1) hq0 hx0 ht hsum_lt
    (by rw [hqv]; simp only [Nat.cast_zero, zero_div]; positivity)
    (by
      rw [hqv, hHq]
      have : (((n / c : Nat) : ℚ) + 1) * 2 ^ t - 1 = (((n / c : Nat) : ℚ) + 1 - 1 / 2 ^ t) * 2 ^ t := by
        field_simp
      rw [this, mul_div_assoc, div_self hpt.ne', mul_one]
      linarith)
  refine ⟨hy0, ?_, ?_⟩
  · simpa using hylo
  · rw [hHq] at hyhi
    have : ((((n / c : Nat) : ℚ) + 1) * 2 ^ t - 1) / 2 ^ t = ((n / c : Nat) : ℚ) + 1 - 1 / 2 ^ t := by
      field_simp
    rw [← this]
    exact hyhi

theorem unit_toInt (n c t : Nat) (hc : 0 < c) (hc53 : c ≤ 2 ^ 53) (ht : t ≤ 53)
    (hq : n / c + 1 ≤ 2 ^ (53 - t)) (hfrac : (n % c) * 2 ^ t ≤ (2 ^ t - 1) * c) :
    (Float64.add (Float64.ofInt ((n / c : Nat) : Int))
        (Float64.divConst (Float64.ofInt ((n % c : Nat) : Int)) c)).toInt = ((n / c : Nat) : Int) := by
  obtain ⟨h0, hlo, hhi⟩ := unit_bounds n c t hc hc53 ht hq hfrac
  have hinv : (0 : ℚ) < 1 / 2 ^ t := by positivity
  exact toInt_eq _ _ h0 hlo (by linarith)

theorem Seconds_toInt (n : Nat) (hn : n < 60000000000) :
    (Duration.Seconds (n : Int)).toInt = ((n / 1000000000 : Nat) : Int) := by
  have h := unit_toInt n 1000000000 30 (by norm_num) (by norm_num) (by norm_num)
    (by norm_num; omega) (by norm_num; omega)
  exact h

theorem Minutes_toInt (n : Nat) (hn : n < 3600000000000) :
    (Duration.Minutes (n : Int)).toInt = ((n / 60000000000 : Nat) : Int) := by
  have h := unit_toInt n 60000000000 36 (by norm_num) (by norm_num) (by norm_num)
    (by norm_num; omega) (by norm_num; omega)
  exact h

theorem Hours_toInt (n : Nat) (hn : n < 86400000000000) :
    (Duration.Hours (n : Int)).toInt = ((n / 3600000000000 : Nat) : Int) := by
  have h := unit_toInt n 3600000000000 42 (by norm_num) (by norm_num) (by norm_num)
    (by norm_num; omega) (by norm_num; omega)
  exact h

/-- On a whole number of seconds below `2 ^ 63` nanoseconds, `int(d.Hours()/24)`
is the number of whole days. -/
theorem Hours_div_24_toInt (n : Nat) (hn : n < 2 ^ 63) (hsec : n % 1000000000 = 0) :
    ((Duration.Hours (n : Int)).divConst 24).toInt = ((n / 86400000000000 : Nat) : Int) := by
  obtain ⟨h0, hlo, hhi⟩ := unit_bounds n 3600000000000 12 (by norm_num) (by norm_num)
    (by norm_num) (by norm_num; omega) (by norm_num; omega)
  have hy : Duration.Hours (n : Int) =
      Float64.add (Float64.ofInt ((n / 3600000000000 : Nat) : Int))
        (Float64.divConst (Float64.ofInt ((n % 3600000000000 : Nat) : Int)) 3600000000000) := rfl
  rw [← hy] at h0 hlo hhi
  generalize Duration.Hours (n : Int) = y at h0 hlo hhi
  have hD : n / 86400000000000 = n / 3600000000000 / 24 := by omega
  have hq1 : 24 * (n / 3600000000000 / 24) ≤ n / 3600000000000 := by omega
  have hq2 : n / 3600000000000 ≤ 24 * (n / 3600000000000 / 24) + 23 := by omega
  have hq3 : n / 3600000000000 / 24 + 1 ≤ 2 ^ 36 := by norm_num; omega
  rw [hD]
  generalize n / 3600000000000 = q at hlo hhi hq1 hq2 hq3
  generalize hDq : q / 24 = D at hq1 hq2 hq3
  have hq1' : (24 : ℚ) * D ≤ q := by exact_mod_cast hq1
  have hq2' : (q : ℚ) ≤ 24 * D + 23 := by exact_mod_cast hq2
  have hq3' : (D : ℚ) + 1 ≤ 2 ^ 36 := by exact_mod_cast hq3
  have hHD : ((((D + 1) * 2 ^ 17 - 1 : Nat)) : ℚ) = ((D : ℚ) + 1) * 2 ^ 17 - 1 := by
    have h1 : 1 ≤ (D + 1) * 2 ^ 17 := Nat.mul_pos (Nat.succ_pos _) (Nat.two_pow_pos _)
    rw [Nat.cast_sub h1]
    push_cast
    ring
  have hylo : (D : ℚ) ≤ y.toRat / 24 := by
    rw [le_div_iff₀ (by norm_num)]
    linarith
  have hyhi : y.toRat / 24 ≤ (D : ℚ) + 1 - 1 / 2 ^ 17 := by
    rw [div_le_iff₀ (by norm_num)]
    norm_num at hhi ⊢
    linarith
  obtain ⟨hz0, hzlo, -⟩ := divConst_bounds y 24 0 D (2 ^ 53) h0 (by norm_num) (by norm_num)
    (by norm_num at hyhi hq3' ⊢; linarith) (by simpa using hylo)
    (by norm_num at hyhi hq3' ⊢; linarith)
  obtain ⟨-, -, hzhi⟩ := divConst_bounds y 24 17 0 ((D + 1) * 2 ^ 17 - 1) h0 (by norm_num)
    (by norm_num) (by norm_num at hyhi hq3' ⊢; linarith)
    (by simp only [Nat.cast_zero, zero_div]; linarith [Nat.cast_nonneg (α := ℚ) D])
    (by rw [hHD]; norm_num at hyhi ⊢; linarith)
  refine toInt_eq _ D hz0 (by simpa using hzlo) ?_
  rw [hHD] at hzhi
  norm_num at hzhi ⊢
  linarith

/-! ### Duration formatting -/

/-- C9 (counterexample): one nanosecond short of 171 days, a non-negative
duration of at least 24 hours, `formatDuration` gives "171d" although
`floor(d / 24h)` is 170: `d.Hours()` rounds up to 4104 in `float64`. -/
theorem formatDuration_day_rounds_up :
    0 ≤ 171 * 24 * Hour - 1 ∧ 24 * Hour ≤ 171 * 24 * Hour - 1 ∧
    171 * 24 * Hour - 1 ≤ maxDuration ∧
    (171 * 24 * Hour - 1) / (24 * Hour) = 170 ∧
    Duration.Hours (171 * 24 * Hour - 1) = ⟨4104 * 2 ^ 40, 40⟩ ∧
    formatDuration (171 * 24 * Hour - 1) = "171d" ∧
    formatDuration (171 * 24 * Hour - 1) ≠
      toString ((171 * 24 * Hour - 1) / (24 * Hour)) ++ "d" := by
  decide

/-- C9 (amended): for every non-negative duration `d`, `formatDuration d` is
`floor(d / 1s)` followed by "s" when `d` is below one minute, `floor(d / 1min)`
followed by "m" from one minute to below one hour, `floor(d / 1h)` followed by
"h" from one hour to below 24 hours, and, when `d` is a whole number of
seconds of at least 24 hours, `floor(d / 24h)` followed by "d"; so 30s gives
"30s", 59s gives "59s", 60s gives "1m", 3h gives "3h" and 48h gives "2d". -/
theorem formatDuration_floor (d : Int) (h0 : 0 ≤ d) (hmax : d ≤ maxDuration) :
    (d < Minute → formatDuration d = toString (d / Second) ++ "s") ∧
    (Minute ≤ d → d < Hour → formatDuration d = toString (d / Minute) ++ "m") ∧
    (Hour ≤ d → d < 24 * Hour → formatDuration d = toString (d / Hour) ++ "h") ∧
    (24 * Hour ≤ d → d % Second = 0 →
      formatDuration d = toString (d / (24 * Hour)) ++ "d") ∧
    formatDuration (30 * Second) = "30s" ∧ formatDuration (59 * Second) = "59s" ∧
    formatDuration (60 * Second) = "1m" ∧ formatDuration (3 * Hour) = "3h" ∧
    formatDuration (48 * Hour) = "2d" := by
  obtain ⟨n, rfl⟩ := Int.eq_ofNat_of_zero_le h0
  have hM : Minute = ((60000000000 : Nat) : Int) := rfl
  have hH : Hour = ((3600000000000 : Nat) : Int) := rfl
  have hD : 24 * Hour = ((86400000000000 : Nat) : Int) := rfl
  have hmax' : n < 2 ^ 63 := by
    have : maxDuration = ((2 ^ 63 - 1 : Nat) : Int) := rfl
    rw [this] at hmax
    have := Int.ofNat_le.mp hmax
    omega
  refine ⟨?_, ?_, ?_, ?_, by decide, by decide, by decide, by decide, by decide⟩
  · intro h1
    have h1' : n < 60000000000 := by rw [hM] at h1; exact_mod_cast h1
    unfold formatDuration
    rw [if_pos h1, Seconds_toInt n h1']
    rfl
  · intro h1 h2
    have h2' : n < 3600000000000 := by rw [hH] at h2; exact_mod_cast h2
    unfold formatDuration
    rw [if_neg (not_lt.mpr h1), if_pos h2, Minutes_toInt n h2']
    rfl
  · intro h1 h2
    have h2' : n < 86400000000000 := by rw [hD] at h2; exact_mod_cast h2
    have hmin : Minute ≤ (n : Int) := le_trans (by decide) h1
    unfold formatDuration
    rw [if_neg (not_lt.mpr hmin), if_neg (not_lt.mpr h1), if_pos h2, Hours_toInt n h2']
    rfl
  · intro h1 h2
    have hsec : n % 1000000000 = 0 := by
      have : (n : Int) % Second = ((n % 1000000000 : Nat) : Int) := rfl
      rw [this] at h2
      exact_mod_cast h2
    have hhour : Hour ≤ (n : Int) := le_trans (by decide) h1
    have hmin : Minute ≤ (n : Int) := le_trans (by decide) hhour
    unfold formatDuration
    rw [if_neg (not_lt.mpr hmin), if_neg (not_lt.mpr hhour), if_neg (not_lt.mpr h1),
      Hours_div_24_toInt n hmax' hsec]
    rfl

/-- Witness of C9: 48 hours is a non-negative whole number of seconds of at
least 24 hours, and `formatDuration` gives "2d" for it. -/
theorem formatDuration_floor_witness :
    (0 : Int) ≤ 48 * Hour ∧ 48 * Hour ≤ maxDuration ∧
    formatDuration (48 * Hour) = toString (48 * Hour / (24 * Hour)) ++ "d" :=
  ⟨by decide, by decide,
    (formatDuration_floor (48 * Hour) (by decide) (by decide)).2.2.2.1 (by decide) (by decide)⟩

/-! ### Report rendering: the events section -/

theorem append_ne_eventsHeader (p s : String) (c : Char) (hp : p.data.head? = some c)
    (hc : c ≠ '⚠') : p ++ s ≠ eventsHeader := by
  intro heq
  have hdata : (p ++ s).data.head? = eventsHeader.data.head? := by rw [heq]
  rw [String.data_append] at hdata
  cases hpd : p.data with
  | nil => rw [hpd] at hp; cases hp
  | cons a as =>
    rw [hpd] at hp hdata
    simp only [List.cons_append, List.head?_cons, Option.some.injEq] at hp hdata
    have : eventsHeader.data.head? = some '⚠' := by decide
    rw [this] at hdata
    exact hc (hp ▸ Option.some.inj hdata)

theorem eventsHeader_not_mem_containerHeader (pod : Pod) (container : ContainerInfo) :
    OutputLine.info eventsHeader ∉ containerHeader pod container := by
  have h1 : eventsHeader ≠ "" := by decide
  have h2 : eventsHeader ≠ stringsRepeat '=' 80 := by decide
  have h3 : eventsHeader ≠ "📋 POD STATUS" := by decide
  have h4 : ∀ s, eventsHeader ≠ "🔍 TRIAGE FOR CONTAINER: '" ++ s :=
    fun s => (append_ne_eventsHeader _ s '🔍' (by decide) (by decide)).symm
  have h5 : ∀ s, eventsHeader ≠ "  Phase: " ++ s :=
    fun s => (append_ne_eventsHeader _ s ' ' (by decide) (by decide)).symm
  unfold containerHeader
  cases container.Failed <;>
    simp [h1, h2, h3, String.append_assoc, h4, h5]

theorem eventsHeader_not_mem_eventsLoop (now : Int) (count : Nat) (events : List EventInfo) :
    OutputLine.info eventsHeader ∉ eventsLoop now count events := by
  induction events generalizing count with
  | nil => simp [eventsLoop]
  | cons event rest ih =>
    have h : ∀ s, eventsHeader ≠ "  " ++ s :=
      fun s => (append_ne_eventsHeader _ s ' ' (by decide) (by decide)).symm
    unfold eventsLoop
    split
    · simp
    · rw [List.mem_cons, not_or]
      refine ⟨?_, ih _⟩
      unfold eventLine
      simp only []
      split
      · simp
      · simp [String.append_assoc, h]

theorem eventsHeader_not_mem_printLines (noColor : Bool) (lines : List String) :
    OutputLine.info eventsHeader ∉ printLines noColor lines := by
  induction lines with
  | nil => simp [printLines]
  | cons line rest ih =>
    unfold printLines
    split
    · exact ih
    · rw [List.mem_cons, not_or]
      refine ⟨?_, ih⟩
      have hb : ∀ b : Bool, OutputLine.info eventsHeader ≠
          (if b then OutputLine.errorMsg ("  " ++ line)
            else OutputLine.println ("  " ++ line)) := by
        intro b
        cases b <;> simp
      exact hb _

theorem eventsHeader_not_mem_logsSection (i : Nat) (logResults : List LogResult)
    (noColor : Bool) : OutputLine.info eventsHeader ∉ logsSection i logResults noColor := by
  have h1 : eventsHeader ≠ "" := by decide
  have h2 : eventsHeader ≠ stringsRepeat '-' 80 := by decide
  have h3 : eventsHeader ≠ "🔥 PREVIOUS LOGS (Last Crash) - Last 50 lines" := by decide
  have h4 : eventsHeader ≠ "🔥 PREVIOUS LOGS" := by decide
  have h5 : eventsHeader ≠ "🔄 CURRENT LOGS - Last 50 lines" := by decide
  have h6 : eventsHeader ≠ "🔄 CURRENT LOGS" := by decide
  have h7 : ∀ s, eventsHeader ≠ "  (No previous logs: " ++ s :=
    fun s => (append_ne_eventsHeader _ s ' ' (by decide) (by decide)).symm
  have h8 : ∀ s, eventsHeader ≠ "  (No current logs: " ++ s :=
    fun s => (append_ne_eventsHeader _ s ' ' (by decide) (by decide)).symm
  have hp := eventsHeader_not_mem_printLines
  unfold logsSection
  split
  · rename_i logResult _
    rw [List.mem_append, not_or]
    constructor
    · unfold previousLogs
      split
      · split
        · simp [h1, h2, h3, printHighlightedLogs, hp]
        · simp
      · split
        · simp [h1, h4, h7, String.append_assoc]
        · simp
    · unfold currentLogs
      split
      · split
        · simp [h1, h2, h5, printHighlightedLogs, hp]
        · simp
      · simp [h1, h6, h8, String.append_assoc]
  · simp

theorem eventsSectionCount_healthySummary (healthyContainers : List ContainerInfo) :
    eventsSectionCount (healthySummary healthyContainers) = 0 := by
  have h1 : eventsHeader ≠ "" := by decide
  have h2 : eventsHeader ≠ stringsRepeat '-' 80 := by decide
  have h3 : ∀ s, eventsHeader ≠ "ℹ️  " ++ s :=
    fun s => (append_ne_eventsHeader _ s 'ℹ' (by decide) (by decide)).symm
  unfold eventsSectionCount
  rw [List.count_eq_zero]
  unfold healthySummary
  split
  · simp [h1, h2, h3, String.append_assoc]
  · simp

theorem eventsSectionCount_append (a b : List OutputLine) :
    eventsSectionCount (a ++ b) = eventsSectionCount a + eventsSectionCount b := by
  simp [eventsSectionCount]

theorem eventsSectionCount_eq_zero (l : List OutputLine)
    (h : OutputLine.info eventsHeader ∉ l) : eventsSectionCount l = 0 :=
  List.count_eq_zero.mpr h

theorem eventsSectionCount_eventsSection (now : Int) (i : Nat) (events : List EventInfo) :
    eventsSectionCount (eventsSection now i events) =
      if i = 0 ∧ events ≠ [] then 1 else 0 := by
  unfold eventsSection
  by_cases h : i = 0 ∧ events.length > 0
  · have h' : i = 0 ∧ events ≠ [] := ⟨h.1, List.length_pos.mp h.2⟩
    rw [if_pos h, if_pos h', eventsSectionCount_append, eventsSectionCount_append,
      eventsSectionCount_eq_zero _ (eventsHeader_not_mem_eventsLoop now 0 events)]
    have h1 : eventsHeader ≠ "" := by decide
    simp [eventsSectionCount, h1]
  · have h' : ¬ (i = 0 ∧ events ≠ []) := fun hc => h ⟨hc.1, List.length_pos.mpr hc.2⟩
    rw [if_neg h, if_neg h']
    rfl

theorem eventsSectionCount_containersLoop (now : Int) (pod : Pod) (events : List EventInfo)
    (logResults : List LogResult) (noColor : Bool) (i : Nat) (containers : List ContainerInfo) :
    eventsSectionCount (containersLoop now pod events logResults noColor i containers) =
      if i = 0 ∧ events ≠ [] ∧ containers ≠ [] then 1 else 0 := by
  induction containers generalizing i with
  | nil => simp [containersLoop, eventsSectionCount]
  | cons container rest ih =>
    unfold containersLoop
    rw [eventsSectionCount_append, eventsSectionCount_append, eventsSectionCount_append, ih,
      eventsSectionCount_eq_zero _ (eventsHeader_not_mem_containerHeader pod container),
      eventsSectionCount_eq_zero _ (eventsHeader_not_mem_logsSection i logResults noColor),
      eventsSectionCount_eventsSection]
    simp

/-- The events section in the output of `displayTriage`: with a non-empty
event sequence it is printed once when the shown list is non-empty, whatever
its length, and not at all when the shown list is empty. -/
theorem eventsSectionCount_displayTriage (now : Int) (pod : Pod)
    (failedContainers healthyContainers : List ContainerInfo) (events : List EventInfo)
    (logResults : List LogResult) (opts : TriageOptions) :
    eventsSectionCount
        (displayTriage now pod failedContainers healthyContainers events logResults opts) =
      if events ≠ [] ∧ failedContainers ≠ [] then 1 else 0 := by
  unfold displayTriage
  rw [eventsSectionCount_append, eventsSectionCount_healthySummary,
    eventsSectionCount_containersLoop]
  simp

/-- C10 (the code at the failing input): on a Pending pod whose only container
waits to be created, `isPodTrulyHealthy` is false, `identifyFailedContainers`
returns an empty failed list, and `displayTriage`, given one Warning event,
prints the events section zero times. -/
theorem displayTriage_no_events_section_when_nothing_shown :
    isPodTrulyHealthy examplePodPending = false ∧
    (identifyFailedContainers examplePodPending false).1 = [] ∧
    eventsSectionCount
        (displayTriage 90000000000 examplePodPending
          (identifyFailedContainers examplePodPending false).1
          (identifyFailedContainers examplePodPending false).2
          [exampleWarning] [] exampleOptions) = 0 := by
  decide

/-! ### Log aggregator -/

theorem length_foldl_goroutineStep (clientset : LogSource) (namespace' podName : String)
    (containers : List ContainerInfo) (tailLines : Int) (schedule : List Nat)
    (results : List LogResult) :
    (schedule.foldl (goroutineStep clientset namespace' podName containers tailLines)
      results).length = results.length := by
  induction schedule generalizing results with
  | nil => rfl
  | cons idx rest ih =>
    rw [List.foldl_cons, ih]
    unfold goroutineStep
    split <;> simp

/-- The slot `i` after a run: the result of the goroutine of index `i` once it
has written, the initial value before. -/
theorem getElem?_foldl_goroutineStep (clientset : LogSource) (namespace' podName : String)
    (containers : List ContainerInfo) (tailLines : Int) (schedule : List Nat)
    (results : List LogResult) (i : Nat) :
    (schedule.foldl (goroutineStep clientset namespace' podName containers tailLines)
      results)[i]? =
      if i ∈ schedule ∧ i < results.length ∧ i < containers.length then
        containers[i]?.map
          (fun c => goroutineResult clientset namespace' podName tailLines c.Name)
      else results[i]? := by
  induction schedule generalizing results with
  | nil => simp
  | cons idx rest ih =>
    rw [List.foldl_cons, ih]
    unfold goroutineStep
    rcases hc : containers[idx]? with _ | c
    · have hidx : containers.length ≤ idx := List.getElem?_eq_none_iff.mp hc
      by_cases hi : i = idx
      · subst hi
        have : ¬ i < containers.length := by omega
        simp [this]
      · simp [hi]
    · have hidx : idx < containers.length := by
        by_contra hcon
        rw [List.getElem?_eq_none_iff.mpr (by omega)] at hc
        cases hc
      by_cases hi : i = idx
      · subst hi
        by_cases hlen : i < results.length
        · by_cases hrest : i ∈ rest
          · simp [hrest, hlen, hidx]
          · simp [hrest, hlen, hidx, hc]
        · have hle : results.length ≤ i := not_lt.mp hlen
          have h1 : ∀ v : LogResult, (results.set i v)[i]? = none := fun v =>
            List.getElem?_eq_none_iff.mpr (by simpa using hle)
          have h2 : results[i]? = none := List.getElem?_eq_none_iff.mpr hle
          simp [hlen, h1, h2]
      · have hne : idx ≠ i := fun h => hi h.symm
        simp [hi, List.getElem?_set_ne hne]

theorem collectLogs_getElem? (clientset : LogSource) (namespace' podName : String)
    (containers : List ContainerInfo) (tailLines : Int) (schedule : List Nat)
    (hschedule : schedule.Perm (List.range containers.length)) (i : Nat) :
    (collectLogs clientset namespace' podName containers tailLines schedule)[i]? =
      containers[i]?.map
        (fun c => goroutineResult clientset namespace' podName tailLines c.Name) := by
  unfold collectLogs
  rw [getElem?_foldl_goroutineStep]
  by_cases hi : i < containers.length
  · have hmem : i ∈ schedule := hschedule.mem_iff.mpr (List.mem_range.mpr hi)
    simp [hmem, hi]
  · have hnone : containers[i]? = none := List.getElem?_eq_none_iff.mpr (not_lt.mp hi)
    simp [hi, hnone]
    omega

/-- C11: with the log source a function of the log options, on every run of
`collectLogs` (every order in which the goroutines write their slots) the
result has the length of the container list, and its `i`-th entry carries the
name of the `i`-th container with, as `Previous`/`PreviousError` and
`Current`/`CurrentError`, the outcomes of that container's two fetches; so the
output is in input order, and the entry of a container is the same under any
other log source that answers alike for that container, whatever it answers
for the others. -/
theorem collectLogs_eq (clientset : LogSource) (namespace' podName : String)
    (containers : List ContainerInfo) (tailLines : Int) (schedule : List Nat)
    (hschedule : schedule.Perm (List.range containers.length)) :
    collectLogs clientset namespace' podName containers tailLines schedule =
      containers.map (fun c =>
        { ContainerName := c.Name
          Previous := (fetchLog clientset namespace' podName
            { Container := c.Name, Previous := true, TailLines := tailLines }).1
          PreviousError := (fetchLog clientset namespace' podName
            { Container := c.Name, Previous := true, TailLines := tailLines }).2
          Current := (fetchLog clientset namespace' podName
            { Container := c.Name, Previous := false, TailLines := tailLines }).1
          CurrentError := (fetchLog clientset namespace' podName
            { Container := c.Name, Previous := false, TailLines := tailLines }).2 }) ∧
    (collectLogs clientset namespace' podName containers tailLines schedule).length =
      containers.length ∧
    ∀ (other : LogSource) (schedule' : List Nat) (i : Nat) (c : ContainerInfo),
      schedule'.Perm (List.range containers.length) → containers[i]? = some c →
      (∀ previous : Bool,
        other namespace' podName
            { Container := c.Name, Previous := previous, TailLines := tailLines } =
          clientset namespace' podName
            { Container := c.Name, Previous := previous, TailLines := tailLines }) →
      (collectLogs other namespace' podName containers tailLines schedule')[i]? =
        (collectLogs clientset namespace' podName containers tailLines schedule)[i]? := by
  refine ⟨?_, ?_, ?_⟩
  · apply List.ext_getElem?
    intro i
    rw [collectLogs_getElem? _ _ _ _ _ _ hschedule, List.getElem?_map]
    rfl
  · unfold collectLogs
    rw [length_foldl_goroutineStep, List.length_replicate]
  · intro other schedule' i c hschedule' hc hsame
    rw [collectLogs_getElem? _ _ _ _ _ _ hschedule, collectLogs_getElem? _ _ _ _ _ _ hschedule',
      hc]
    simp only [Option.map_some', goroutineResult, fetchLog, hsame]

/-- Witness of C11: three containers, a log source that fails for the previous
logs of the first and for all logs of the second, and a run in which the
goroutines write in the order 2, 0, 1. -/
theorem collectLogs_eq_witness :
    [2, 0, 1].Perm (List.range exampleContainers.length) ∧
    collectLogs exampleLogSource "default" "web" exampleContainers 50 [2, 0, 1] =
      [{ ContainerName := "app", Previous := "", Current := "started\n",
         PreviousError := some "previous terminated container \"app\" in pod \"web\" not found",
         CurrentError := none },
       { ContainerName := "broken", Previous := "", Current := "",
         PreviousError := some "connection refused",
         CurrentError := some "connection refused" },
       { ContainerName := "sidecar", Previous := "started\n", Current := "started\n",
         PreviousError := none, CurrentError := none }] :=
  ⟨by decide,
    (collectLogs_eq exampleLogSource "default" "web" exampleContainers 50 [2, 0, 1]
      (by decide)).1.trans (by decide)⟩

/-! ### Ready count -/

theorem readyLoop_eq (ready : Nat) (statuses : List ContainerStatus) :
    readyLoop ready statuses = ready + statuses.countP (fun cs => cs.Ready) := by
  induction statuses generalizing ready with
  | nil => rfl
  | cons cs rest ih =>
    unfold readyLoop
    cases h : cs.Ready
    · simp [h, ih, List.countP_cons]
    · simp [h, ih, List.countP_cons]
      omega

/-- C12: for every pod, `getReadyCount` returns `ready`, a slash and `total`,
both in decimal digits, where `total` is the number of container statuses and
`ready` the number of those whose Ready flag is set, so `ready` is at most
`total`; one ready container gives "1/1", two that are not ready "0/2", one
ready of three "1/3". -/
theorem getReadyCount_eq (pod : Pod) :
    getReadyCount pod =
      toString (pod.Status.ContainerStatuses.countP (fun cs => cs.Ready)) ++ "/" ++
        toString pod.Status.ContainerStatuses.length ∧
    getReadyCount pod =
      String.mk (Nat.toDigits 10 (pod.Status.ContainerStatuses.countP (fun cs => cs.Ready)) ++
        '/' :: Nat.toDigits 10 pod.Status.ContainerStatuses.length) ∧
    pod.Status.ContainerStatuses.countP (fun cs => cs.Ready) ≤
      pod.Status.ContainerStatuses.length ∧
    getReadyCount (testPod [("app", true)]) = "1/1" ∧
    getReadyCount (testPod [("app", false), ("sidecar", false)]) = "0/2" ∧
    getReadyCount (testPod [("app", true), ("sidecar1", false), ("sidecar2", false)]) =
      "1/3" := by
  have h : getReadyCount pod =
      toString (pod.Status.ContainerStatuses.countP (fun cs => cs.Ready)) ++ "/" ++
        toString pod.Status.ContainerStatuses.length := by
    unfold getReadyCount
    rw [readyLoop_eq, Nat.zero_add]
  refine ⟨h, ?_, List.countP_le_length _, by decide, by decide, by decide⟩
  have hd : ∀ n : Nat, (toString n).data = Nat.toDigits 10 n := fun _ => rfl
  rw [h]
  apply String.ext
  simp only [String.data_append, hd]
  simp

/-! ### Report rendering: the logs section -/

/-- The function `strings.Contains` as embedded: `substr` occurs in `s` exactly
when `s` is some text, then `substr`, then some text. -/
theorem stringsContains_iff (s substr : String) :
    stringsContains s substr = true ↔ ∃ a b : String, s = a ++ substr ++ b := by
  unfold stringsContains
  rw [List.any_eq_true]
  constructor
  · rintro ⟨t, ht, hpre⟩
    obtain ⟨a, ha⟩ := (List.mem_tails _ _).mp ht
    obtain ⟨b, hb⟩ := List.isPrefixOf_iff_prefix.mp hpre
    refine ⟨String.mk a, String.mk b, ?_⟩
    apply String.ext
    simp only [String.data_append]
    rw [← ha, ← hb, List.append_assoc]
  · rintro ⟨a, b, rfl⟩
    refine ⟨substr.data ++ b.data, ?_, ?_⟩
    · rw [List.mem_tails]
      exact ⟨a.data, by simp [String.data_append]⟩
    · exact List.isPrefixOf_iff_prefix.mpr ⟨b.data, rfl⟩

theorem containersLoop_append (now : Int) (pod : Pod) (events : List EventInfo)
    (logResults : List LogResult) (noColor : Bool) (i : Nat) (l₁ l₂ : List ContainerInfo) :
    containersLoop now pod events logResults noColor i (l₁ ++ l₂) =
      containersLoop now pod events logResults noColor i l₁ ++
        containersLoop now pod events logResults noColor (i + l₁.length) l₂ := by
  induction l₁ generalizing i with
  | nil => simp [containersLoop]
  | cons c rest ih =>
    rw [List.cons_append, containersLoop, containersLoop, ih (i + 1), List.length_cons,
      show i + 1 + rest.length = i + (rest.length + 1) by omega]
    simp only [List.append_assoc]

/-- The output of `displayTriage` around the block of the shown container at
index `i`. -/
theorem displayTriage_split (now : Int) (pod : Pod)
    (failedContainers healthyContainers : List ContainerInfo) (events : List EventInfo)
    (logResults : List LogResult) (opts : TriageOptions) (i : Nat) (container : ContainerInfo)
    (hc : failedContainers[i]? = some container) :
    displayTriage now pod failedContainers healthyContainers events logResults opts =
      containersLoop now pod events logResults opts.NoColor 0 (failedContainers.take i) ++
        (containerHeader pod container ++ eventsSection now i events ++
          logsSection i logResults opts.NoColor) ++
        containersLoop now pod events logResults opts.NoColor (i + 1)
          (failedContainers.drop (i + 1)) ++
        healthySummary healthyContainers := by
  obtain ⟨hi, hget⟩ := List.getElem?_eq_some_iff.mp hc
  have hsplit : failedContainers =
      failedContainers.take i ++ container :: failedContainers.drop (i + 1) := by
    rw [← hget, List.getElem_cons_drop, List.take_append_drop]
  have hlen : (failedContainers.take i).length = i := by
    rw [List.length_take]
    omega
  unfold displayTriage
  conv_lhs => rw [hsplit]
  rw [containersLoop_append, hlen, Nat.zero_add]
  simp only [containersLoop, List.append_assoc]

/-- C13 (counterexample): the only container of a quiet pod is shown with
`allContainers` set; its previous-log fetch failed with the error for a
missing previous instance, its current logs are empty and their fetch did not
fail.  `displayTriage` prints the banner and the pod status and stops: neither
a previous-logs section nor a current-logs section is rendered. -/
theorem displayTriage_no_current_section_when_empty :
    (identifyFailedContainers examplePodQuiet true).1 =
      [{ Name := "sidecar", State := "Running", Reason := "", RestartCount := 0,
         Failed := false }] ∧
    exampleQuietLogs.PreviousError =
      some "previous terminated container \"sidecar\" in pod \"web\" not found" ∧
    exampleQuietLogs.Current = "" ∧ exampleQuietLogs.CurrentError = none ∧
    displayTriage 90000000000 examplePodQuiet (identifyFailedContainers examplePodQuiet true).1
        (identifyFailedContainers examplePodQuiet true).2 [] [exampleQuietLogs]
        exampleOptions =
      [OutputLine.info "", OutputLine.info (stringsRepeat '=' 80),
       OutputLine.info "🔍 TRIAGE FOR CONTAINER: 'sidecar'",
       OutputLine.info (stringsRepeat '=' 80), OutputLine.info "",
       OutputLine.info "📋 POD STATUS",
       OutputLine.info "  Phase: Running | Restarts: 0 | Ready: 1/1",
       OutputLine.info ""] := by
  decide

/-- C13 (amended): for a shown container whose previous-log fetch failed, the
block that `displayTriage` prints for it depends on the error text.  When the
text contains "previous terminated container", as the log source's error
"previous terminated container ... not found" does, the block has no
previous-logs header and no "(No previous logs: ...)" note; for any other
error it has the header "🔥 PREVIOUS LOGS" and the note with the error text,
printed by `log.Info`.  In both cases the current-logs section follows as it
is printed without a previous-log error: the header "🔄 CURRENT LOGS" and a
"(No current logs: ...)" note when the current fetch failed, the header
"🔄 CURRENT LOGS - Last 50 lines" and the log lines between two rules when the
current logs are not empty, and nothing when they are empty. -/
theorem displayTriage_previous_error (now : Int) (pod : Pod)
    (failedContainers healthyContainers : List ContainerInfo) (events : List EventInfo)
    (logResults : List LogResult) (opts : TriageOptions) (i : Nat) (container : ContainerInfo)
    (logResult : LogResult) (err : String)
    (hc : failedContainers[i]? = some container) (hr : logResults[i]? = some logResult)
    (he : logResult.PreviousError = some err) :
    ((∃ a b : String, err = a ++ "previous terminated container" ++ b) →
      displayTriage now pod failedContainers healthyContainers events logResults opts =
        containersLoop now pod events logResults opts.NoColor 0 (failedContainers.take i) ++
          (containerHeader pod container ++ eventsSection now i events ++
            (match logResult.CurrentError with
              | some currentError =>
                [OutputLine.info "🔄 CURRENT LOGS",
                 OutputLine.info ("  (No current logs: " ++ currentError ++ ")"),
                 OutputLine.info ""]
              | none =>
                if logResult.Current = "" then []
                else
                  [OutputLine.info "🔄 CURRENT LOGS - Last 50 lines",
                   OutputLine.info (stringsRepeat '-' 80)] ++
                  printHighlightedLogs logResult.Current opts.NoColor ++
                  [OutputLine.info (stringsRepeat '-' 80), OutputLine.info ""])) ++
          containersLoop now pod events logResults opts.NoColor (i + 1)
            (failedContainers.drop (i + 1)) ++
          healthySummary healthyContainers) ∧
    ((¬ ∃ a b : String, err = a ++ "previous terminated container" ++ b) →
      displayTriage now pod failedContainers healthyContainers events logResults opts =
        containersLoop now pod events logResults opts.NoColor 0 (failedContainers.take i) ++
          (containerHeader pod container ++ eventsSection now i events ++
            ([OutputLine.info "🔥 PREVIOUS LOGS",
              OutputLine.info ("  (No previous logs: " ++ err ++ ")"), OutputLine.info ""] ++
              (match logResult.CurrentError with
                | some currentError =>
                  [OutputLine.info "🔄 CURRENT LOGS",
                   OutputLine.info ("  (No current logs: " ++ currentError ++ ")"),
                   OutputLine.info ""]
                | none =>
                  if logResult.Current = "" then []
                  else
                    [OutputLine.info "🔄 CURRENT LOGS - Last 50 lines",
                     OutputLine.info (stringsRepeat '-' 80)] ++
                    printHighlightedLogs logResult.Current opts.NoColor ++
                    [OutputLine.info (stringsRepeat '-' 80), OutputLine.info ""]))) ++
          containersLoop now pod events logResults opts.NoColor (i + 1)
            (failedContainers.drop (i + 1)) ++
          healthySummary healthyContainers) := by
  have hsplit := displayTriage_split now pod failedContainers healthyContainers events
    logResults opts i container hc
  have hlogs : logsSection i logResults opts.NoColor =
      (if stringsContains err "previous terminated container" = true then []
        else [OutputLine.info "🔥 PREVIOUS LOGS",
          OutputLine.info ("  (No previous logs: " ++ err ++ ")"), OutputLine.info ""]) ++
        currentLogs logResult opts.NoColor := by
    unfold logsSection
    rw [hr]
    simp only []
    unfold previousLogs
    rw [he]
    simp only []
    cases stringsContains err "previous terminated container" <;> simp
  have hcurrent : currentLogs logResult opts.NoColor =
      match logResult.CurrentError with
      | some currentError =>
        [OutputLine.info "🔄 CURRENT LOGS",
         OutputLine.info ("  (No current logs: " ++ currentError ++ ")"), OutputLine.info ""]
      | none =>
        if logResult.Current = "" then []
        else
          [OutputLine.info "🔄 CURRENT LOGS - Last 50 lines",
           OutputLine.info (stringsRepeat '-' 80)] ++
          printHighlightedLogs logResult.Current opts.NoColor ++
          [OutputLine.info (stringsRepeat '-' 80), OutputLine.info ""] := by
    unfold currentLogs
    rcases logResult.CurrentError with _ | currentError
    · by_cases h : logResult.Current = "" <;> simp [h]
    · rfl
  rw [hcurrent] at hlogs
  refine ⟨?_, ?_⟩
  · intro hmarker
    rw [hsplit, hlogs, if_pos ((stringsContains_iff _ _).mpr hmarker), List.nil_append]
  · intro hother
    have hnot : ¬ stringsContains err "previous terminated container" = true :=
      fun h => hother ((stringsContains_iff _ _).mp h)
    rw [hsplit, hlogs, if_neg hnot]

/-- Witness of C13: the container `app` of a crash-looping pod is shown, its
previous-log fetch failed with the error for a missing previous instance and
its current logs hold one line; its block has no previous-logs section and
ends with the current-logs section. -/
theorem displayTriage_previous_error_witness :
    [exampleAppInfo][0]? = some exampleAppInfo ∧
    [exampleAppLogs][0]? = some exampleAppLogs ∧
    exampleAppLogs.PreviousError =
      some "previous terminated container \"app\" in pod \"web\" not found" ∧
    displayTriage 90000000000 examplePodCrashLoop [exampleAppInfo] [] [exampleWarning]
        [exampleAppLogs] exampleOptions =
      [OutputLine.info "", OutputLine.info (stringsRepeat '=' 80),
       OutputLine.errorMsg "🚨 TRIAGE FOR FAILED CONTAINER: 'app' (Reason: CrashLoopBackOff)",
       OutputLine.info (stringsRepeat '=' 80), OutputLine.info "",
       OutputLine.info "📋 POD STATUS",
       OutputLine.info "  Phase: Running | Restarts: 5 | Ready: 1/2",
       OutputLine.info "",
       OutputLine.info "⚠️  CRITICAL EVENTS (Warning/Error only - Last 10)",
       OutputLine.errorMsg "  1m ago | Warning | FailedMount     | unable to mount volume",
       OutputLine.info "",
       OutputLine.info "🔄 CURRENT LOGS - Last 50 lines",
       OutputLine.info (stringsRepeat '-' 80),
       OutputLine.println "  started",
       OutputLine.info (stringsRepeat '-' 80), OutputLine.info ""] :=
  ⟨rfl, rfl, rfl,
    ((displayTriage_previous_error 90000000000 examplePodCrashLoop [exampleAppInfo] []
      [exampleWarning] [exampleAppLogs] exampleOptions 0 exampleAppInfo exampleAppLogs
      "previous terminated container \"app\" in pod \"web\" not found" rfl rfl rfl).1
      ⟨"", " \"app\" in pod \"web\" not found", by decide⟩).trans (by decide)⟩

/-! ### Report rendering: the healthy summary -/

theorem healthyNamesLoop_eq (healthyNames : List String) (healthyContainers : List ContainerInfo) :
    healthyNamesLoop healthyNames healthyContainers =
      healthyNames ++ healthyContainers.map (fun c =>
        c.Name ++ " (" ++ c.State ++ ", " ++ toString c.RestartCount ++ " restarts)") := by
  induction healthyContainers generalizing healthyNames with
  | nil => simp [healthyNamesLoop]
  | cons c rest ih =>
    rw [healthyNamesLoop, ih]
    simp

/-- C14: for every non-empty healthy list, `displayTriage` ends with the
healthy summary: a rule, then one line that reports the number of healthy
containers and lists, in list order and separated by ", ", one entry
"name (state, restart count restarts)" per healthy container, then an empty
line.  For the pod with `app` (5 restarts, Waiting in CrashLoopBackOff) and
`sidecar` (no restart, Running) the classification gives failed = [app] and
healthy = [sidecar], and the summary lists "sidecar (Running, 0 restarts)". -/
theorem displayTriage_healthySummary (now : Int) (pod : Pod)
    (failedContainers healthyContainers : List ContainerInfo) (events : List EventInfo)
    (logResults : List LogResult) (opts : TriageOptions) (hne : healthyContainers ≠ []) :
    displayTriage now pod failedContainers healthyContainers events logResults opts =
      containersLoop now pod events logResults opts.NoColor 0 failedContainers ++
        [OutputLine.info (stringsRepeat '-' 80),
         OutputLine.info ("ℹ️  " ++ toString healthyContainers.length ++
           " other container(s) running normally: [" ++
           String.intercalate ", " (healthyContainers.map (fun c =>
             c.Name ++ " (" ++ c.State ++ ", " ++ toString c.RestartCount ++ " restarts)")) ++
           "]"),
         OutputLine.info ""] ∧
    identifyFailedContainers examplePodCrashLoop false =
      ([{ Name := "app", State := "Waiting", Reason := "CrashLoopBackOff", RestartCount := 5,
          Failed := true }],
       [{ Name := "sidecar", State := "Running", Reason := "", RestartCount := 0,
          Failed := false }]) ∧
    healthySummary (identifyFailedContainers examplePodCrashLoop false).2 =
      [OutputLine.info (stringsRepeat '-' 80),
       OutputLine.info
         "ℹ️  1 other container(s) running normally: [sidecar (Running, 0 restarts)]",
       OutputLine.info ""] := by
  refine ⟨?_, by decide, by decide⟩
  have hpos : healthyContainers.length > 0 := List.length_pos.mpr hne
  unfold displayTriage healthySummary
  rw [if_pos hpos, healthyNamesLoop_eq, List.nil_append]

/-- Witness of C14: the healthy list of the pod with `app` and `sidecar` is
non-empty, and `displayTriage` ends with its summary. -/
theorem displayTriage_healthySummary_witness :
    (identifyFailedContainers examplePodCrashLoop false).2 ≠ [] ∧
    displayTriage 90000000000 examplePodCrashLoop
        (identifyFailedContainers examplePodCrashLoop false).1
        (identifyFailedContainers examplePodCrashLoop false).2
        [exampleWarning] [exampleAppLogs] exampleOptions =
      containersLoop 90000000000 examplePodCrashLoop [exampleWarning] [exampleAppLogs]
          exampleOptions.NoColor 0 (identifyFailedContainers examplePodCrashLoop false).1 ++
        [OutputLine.info (stringsRepeat '-' 80),
         OutputLine.info
           "ℹ️  1 other container(s) running normally: [sidecar (Running, 0 restarts)]",
         OutputLine.info ""] :=
  ⟨by decide,
    (displayTriage_healthySummary 90000000000 examplePodCrashLoop
      (identifyFailedContainers examplePodCrashLoop false).1
      (identifyFailedContainers examplePodCrashLoop false).2
      [exampleWarning] [exampleAppLogs] exampleOptions (by decide)).1.trans (by decide)⟩

end Plugin
